import Mathlib

/-!
Verification development for the PoPLocalization asset-translation tool.

The Python sources are shallowly embedded: strings are `List Char`
(Python `str`), Python `int` is `Int`, dictionaries whose later
assignments overwrite earlier ones are association lists read with a
last-binding-wins lookup, and the `re.search` calls of the decoder are
modelled by a character-level scan with the exact literal/`\s*`/`\d+`/
`(.+)` semantics the two patterns use (ASCII whitespace and digits; the
data the tool handles is ASCII).  Fallible code (a failed `re.search`
followed by `.group`, i.e. `AttributeError`) is modelled with `Option`.
-/

/-- Python `str`, embedded as its character list. -/
abbrev Str := List Char

/-- Python `\s` (ASCII portion): the whitespace characters recognised by
`re` on the data this tool handles. -/
def isPySpace (c : Char) : Bool :=
  c = ' ' || c = '\t' || c = '\n' || c = '\r' || c = '\x0b' || c = '\x0c'

/-- Python `\d` (ASCII portion). -/
def isAsciiDigit (c : Char) : Bool :=
  '0' ≤ c && c ≤ '9'

/-- The decimal digit characters, least significant handled by `% 10`. -/
def digitChar : Nat → Char
  | 0 => '0' | 1 => '1' | 2 => '2' | 3 => '3' | 4 => '4'
  | 5 => '5' | 6 => '6' | 7 => '7' | 8 => '8' | _ => '9'

/-- Numeric value of a decimal digit character. -/
def charVal (c : Char) : Nat := c.toNat - 48

/-- Structural worker for the decimal-digit expansion: the fuel strictly
bounds the value, so it never runs out. -/
def natToDigitsGo : Nat → Nat → Str
  | 0, _ => []
  | fuel + 1, n =>
    if n < 10 then [digitChar n]
    else natToDigitsGo fuel (n / 10) ++ [digitChar (n % 10)]

/-- Decimal digits of a natural number, most significant first
(the digits Python `str(int)` prints for a non-negative int). -/
def natToDigits (n : Nat) : Str := natToDigitsGo (n + 1) n

/-- Value of a decimal digit string (what Python `int(...)` returns on
the digits captured by `\d+`). -/
def digitsToNat (ds : Str) : Nat :=
  ds.foldl (fun a c => a * 10 + charVal c) 0

/-- Python `str` of an `int`. -/
def intToStr : Int → Str
  | .ofNat n => natToDigits n
  | .negSucc m => '-' :: natToDigits (m + 1)

/-- One attempt of `re.search` at a fixed position: the literal label
must match here, then the sub-matcher `m` runs on what follows it. -/
def tryAt (label : Str) (m : Str → Option α) (s : Str) : Option α :=
  if label.isPrefixOf s then m (s.drop label.length) else none

/-- `re.search` for a pattern `label` + tail over a string: try every
position left to right, first success wins. -/
def reSearch (label : Str) (m : Str → Option α) : Str → Option α
  | [] => tryAt label m []
  | c :: tl =>
    match tryAt label m (c :: tl) with
    | some r => some r
    | none => reSearch label m tl

/-- Tail of the pattern `LABEL:\s*(\d+)`: skip whitespace greedily, then
capture at least one digit.  (Backtracking the greedy `\s*` can never
expose a digit, so the maximal-munch reading is exact.) -/
def matchNat (s : Str) : Option Nat :=
  let r := s.dropWhile isPySpace
  let ds := r.takeWhile isAsciiDigit
  if ds.isEmpty then none else some (digitsToNat ds)

/-- Backtracking case of `\s*(.+)` when only whitespace follows the
label: the greedy `\s*` gives characters back until `.` can match, so
the capture starts at the last non-newline whitespace character. -/
def backtrackLine : Str → Option Str
  | [] => none
  | c :: tl =>
    match backtrackLine tl with
    | some r => some r
    | none => if c = '\n' then none else some ((c :: tl).takeWhile (fun x => x ≠ '\n'))

/-- Tail of the pattern `LABEL:\s*(.+)`: skip whitespace greedily, then
capture the maximal run of non-newline characters (backtracking into the
whitespace when nothing follows it). -/
def matchLine (s : Str) : Option Str :=
  let w := s.takeWhile isPySpace
  let r := s.dropWhile isPySpace
  match r with
  | [] => backtrackLine w
  | _ :: _ => some (r.takeWhile (fun x => x ≠ '\n'))

/-- Does `pat` occur as a contiguous substring of `s`?  (Python `in`.) -/
def subOccurs (pat : Str) : Str → Bool
  | [] => pat.isEmpty
  | c :: tl => pat.isPrefixOf (c :: tl) || subOccurs pat tl

/-- Python `str.lower()` on ASCII data. -/
def toLowerStr (s : Str) : Str := s.map Char.toLower

-- The labels of the persisted context string (`processors.py` /
-- `operations.py`), without the space that the `\s*` of each pattern eats.
def pathIDLabel : Str := "PathID:".data
def scriptLabel : Str := "Script:".data
def gidLabel : Str := "GameObjectID:".data
def jsonPathLabel : Str := "JsonPath:".data

/-- The context-decoding step of `core_apply` (operations.py:56-59):
`PathID`, `Script` and `GameObjectID` are extracted by three `re.search`
calls; a failure of any of them (the `AttributeError` of `.group` on
`None`) makes the whole record undecodable. -/
def decodeApplyCtx (ctx : Str) : Option (Nat × Str × Nat) :=
  match reSearch pathIDLabel matchNat ctx,
        reSearch scriptLabel matchLine ctx,
        reSearch gidLabel matchNat ctx with
  | some p, some s, some g => some (p, s, g)
  | _, _, _ => none

/-- Context string written by `TextProcessor.extract` (processors.py:62). -/
def textContextStr (gid : Int) (path : Str) (pid : Int) (script : Str) : Str :=
  "GameObjectID: ".data ++ intToStr gid ++ "\n".data ++
  "GameObjectPath: ".data ++ path ++ "\n".data ++
  "PathID: ".data ++ intToStr pid ++ "\n".data ++
  "Script: ".data ++ script

/-- Context string written by `ItemControllerProcessor.extract`
(processors.py:114). -/
def itemContextStr (gid : Int) (pid : Int) (script cat name : Str) : Str :=
  "GameObjectID: ".data ++ intToStr gid ++ "\n".data ++
  "PathID: ".data ++ intToStr pid ++ "\n".data ++
  "Script: ".data ++ script ++ "\n".data ++
  "JsonPath: ".data ++ cat ++ "_".data ++ name

/-- Context string written by `DropdownProcessor.extract`
(processors.py:171). -/
def dropdownContextStr (gid : Int) (pid : Int) (script : Str) : Str :=
  "GameObjectID: ".data ++ intToStr gid ++ "\n".data ++
  "PathID: ".data ++ intToStr pid ++ "\n".data ++
  "Script: ".data ++ script

/-- ParatranzEntry (common.py:5-12); also the shape of a persisted
translation record as `core_apply` reads it back from JSON.  A missing
`translation` key and an empty translation behave identically in every
code path that consumes records (both are falsy), so `translation` is a
plain string with `[]` meaning untranslated/missing. -/
structure PEntry where
  key : Str
  original : Str
  translation : Str
  stage : Int
  context : Str
deriving DecidableEq

/-- Python truthiness of `data.get(field)` for an optional string field:
the key must be present and the string non-empty. -/
def optTruthy : Option Str → Bool
  | none => false
  | some s => !s.isEmpty

/-- `f"{gid}:{script}:{pid}:{text}"`, the key source of TextProcessor
(processors.py:60) and DropdownProcessor (processors.py:169).
`generate_hash` (SHA-256) is not re-implemented; every statement is
parametric in the hash function. -/
def flatKeySource (gid pid : Int) (script text : Str) : Str :=
  intToStr gid ++ ":".data ++ script ++ ":".data ++ intToStr pid ++ ":".data ++ text

/-- `f"{gid}:{script}:{pid}:{category}:{name}:{description}"`
(processors.py:112). -/
def itemKeySource (gid pid : Int) (script cat name desc : Str) : Str :=
  intToStr gid ++ ":".data ++ script ++ ":".data ++ intToStr pid ++ ":".data ++
  cat ++ ":".data ++ name ++ ":".data ++ desc

/-- The two recognized text-field aliases of a TextMeshPro-like
MonoBehaviour tree (`none` = key absent). -/
structure TextData where
  m_text : Option Str
  m_Text : Option Str
deriving DecidableEq

/-- The `m_text`-then-`m_Text` selection of TextProcessor.extract
(processors.py:51-58): first populated alias wins, `none` when neither
is populated. -/
def textFieldValue (d : TextData) : Option Str :=
  if optTruthy d.m_text then d.m_text
  else if optTruthy d.m_Text then d.m_Text
  else none

/-- The single entry TextProcessor.extract emits (processors.py:60-71). -/
def textEntryFor (hash : Str → Str) (gid : Int) (path : Str) (pid : Int) (script v : Str) : PEntry :=
  { key := hash (flatKeySource gid pid script v)
    original := v
    translation := []
    stage := 0
    context := textContextStr gid path pid script }

/-- TextProcessor.extract (processors.py:50-71). -/
def textExtract (hash : Str → Str) (gid : Int) (path : Str) (pid : Int) (script : Str) (d : TextData) : List PEntry :=
  match textFieldValue d with
  | none => []
  | some v => [textEntryFor hash gid path pid script v]

/-- TextProcessor.apply (processors.py:73-91): consumes `translations[0]`
only; returns the mutated tree and the `modified` flag it returns. -/
def textApply (d : TextData) (g : List PEntry) : TextData × Bool :=
  match g with
  | [] => (d, false)
  | r :: _ =>
    if r.translation.isEmpty then (d, false)
    else if optTruthy d.m_text then ({ d with m_text := some r.translation }, true)
    else if optTruthy d.m_Text then ({ d with m_Text := some r.translation }, true)
    else (d, false)

/-- The conditional `save_typetree` at the end of TextProcessor.apply
(processors.py:89-90): the tree persisted, or `none` when no save call
happens. -/
def textSaved (d : TextData) (g : List PEntry) : Option TextData :=
  if (textApply d g).2 then some (textApply d g).1 else none

/-- One item of an ItemController category list; `[]` models a missing
or empty `name`/`description` (identical falsy behaviour). -/
structure Item where
  name : Str
  description : Str
deriving DecidableEq

/-- The five category lists of an ItemController tree. -/
structure ItemData where
  commonItems : List Item
  rareItems : List Item
  legendaryItems : List Item
  specialItems : List Item
  mythicItems : List Item
deriving DecidableEq

/-- `ItemControllerProcessor.ITEM_CATEGORIES` (processors.py:97). -/
def ITEM_CATEGORIES : List Str :=
  ["commonItems".data, "rareItems".data, "legendaryItems".data,
   "specialItems".data, "mythicItems".data]

/-- `self.data.get(category, [])` (processors.py:106,139). -/
def getCategory (d : ItemData) (c : Str) : List Item :=
  if c = "commonItems".data then d.commonItems
  else if c = "rareItems".data then d.rareItems
  else if c = "legendaryItems".data then d.legendaryItems
  else if c = "specialItems".data then d.specialItems
  else if c = "mythicItems".data then d.mythicItems
  else []

/-- The entry ItemControllerProcessor.extract emits for one item
(processors.py:112-122). -/
def itemEntryFor (hash : Str → Str) (gid pid : Int) (script cat : Str) (it : Item) : PEntry :=
  { key := hash (itemKeySource gid pid script cat it.name it.description)
    original := it.description
    translation := []
    stage := 0
    context := itemContextStr gid pid script cat it.name }

/-- Inner loop of ItemControllerProcessor.extract over one category's
items (processors.py:106-122). -/
def itemExtractItems (hash : Str → Str) (gid pid : Int) (script cat : Str) : List Item → List PEntry
  | [] => []
  | it :: rest =>
    if it.name.isEmpty || it.description.isEmpty then
      itemExtractItems hash gid pid script cat rest
    else
      itemEntryFor hash gid pid script cat it :: itemExtractItems hash gid pid script cat rest

/-- Outer loop of ItemControllerProcessor.extract over the category
names (processors.py:105). -/
def itemExtractCats (hash : Str → Str) (gid pid : Int) (script : Str) (d : ItemData) : List Str → List PEntry
  | [] => []
  | c :: cs => itemExtractItems hash gid pid script c (getCategory d c) ++ itemExtractCats hash gid pid script d cs

/-- ItemControllerProcessor.extract (processors.py:103-123). -/
def itemExtract (hash : Str → Str) (gid pid : Int) (script : Str) (d : ItemData) : List PEntry :=
  itemExtractCats hash gid pid script d ITEM_CATEGORIES

/-- Reading a Python dict built as an ordered assoc list of assignments:
the last assignment to a key wins. -/
def lookupLast {κ β : Type} [DecidableEq κ] (m : List (κ × β)) (k : κ) : Option β :=
  m.foldl (fun acc p => if p.1 = k then some p.2 else acc) none

/-- The dict comprehension of ItemControllerProcessor.apply
(processors.py:129-132): one `(JsonPath, translation)` pair per record
with a truthy translation; `none` models the `AttributeError` raised
when such a record's context has no JsonPath match. -/
def buildItemMap : List PEntry → Option (List (Str × Str))
  | [] => some []
  | e :: rest =>
    if e.translation.isEmpty then buildItemMap rest
    else
      match reSearch jsonPathLabel matchLine e.context with
      | none => none
      | some jp =>
        match buildItemMap rest with
        | none => none
        | some m => some ((jp, e.translation) :: m)

/-- Inner loop of ItemControllerProcessor.apply over one category's
items (processors.py:139-147). -/
def itemPatchItems (m : List (Str × Str)) (cat : Str) : List Item → List Item × Bool
  | [] => ([], false)
  | it :: rest =>
    let r := itemPatchItems m cat rest
    if it.name.isEmpty || it.description.isEmpty then (it :: r.1, r.2)
    else
      match lookupLast m (cat ++ '_' :: it.name) with
      | some t => ({ it with description := t } :: r.1, true)
      | none => (it :: r.1, r.2)

/-- ItemControllerProcessor.apply (processors.py:125-151); `none` models
the uncaught `AttributeError` of the map comprehension. -/
def itemApply (d : ItemData) (g : List PEntry) : Option (ItemData × Bool) :=
  if g.isEmpty then some (d, false)
  else
    match buildItemMap g with
    | none => none
    | some m =>
      if m.isEmpty then some (d, false)
      else
        let c := itemPatchItems m "commonItems".data d.commonItems
        let r := itemPatchItems m "rareItems".data d.rareItems
        let l := itemPatchItems m "legendaryItems".data d.legendaryItems
        let s := itemPatchItems m "specialItems".data d.specialItems
        let y := itemPatchItems m "mythicItems".data d.mythicItems
        some ({ commonItems := c.1, rareItems := r.1, legendaryItems := l.1,
                specialItems := s.1, mythicItems := y.1 },
              c.2 || r.2 || l.2 || s.2 || y.2)

/-- The conditional `save_typetree` of ItemControllerProcessor.apply
(processors.py:149-150). -/
def itemSaved (d : ItemData) (g : List PEntry) : Option ItemData :=
  match itemApply d g with
  | some (d', true) => some d'
  | _ => none

/-- One entry of the `m_Options.m_Options` list of a Dropdown tree
(`none` = the dict has no `m_Text` key). -/
structure DOption where
  m_Text : Option Str
deriving DecidableEq

/-- The entry DropdownProcessor.extract emits for one option
(processors.py:169-179). -/
def dropdownEntryFor (hash : Str → Str) (gid pid : Int) (script text : Str) : PEntry :=
  { key := hash (flatKeySource gid pid script text)
    original := text
    translation := []
    stage := 0
    context := dropdownContextStr gid pid script }

/-- DropdownProcessor.extract (processors.py:161-180); a Dropdown tree is
modelled by its option list (`data.get("m_Options", {}).get("m_Options", [])`,
with missing keys yielding `[]`). -/
def dropdownExtract (hash : Str → Str) (gid pid : Int) (script : Str) : List DOption → List PEntry
  | [] => []
  | o :: rest =>
    match o.m_Text with
    | some t =>
      if t.isEmpty then dropdownExtract hash gid pid script rest
      else dropdownEntryFor hash gid pid script t :: dropdownExtract hash gid pid script rest
    | none => dropdownExtract hash gid pid script rest

/-- The `original -> translation` dict of DropdownProcessor.apply
(processors.py:186-189). -/
def dropdownMap (g : List PEntry) : List (Str × Str) :=
  (g.filter (fun e => !e.translation.isEmpty)).map (fun e => (e.original, e.translation))

/-- The option-patching loop of DropdownProcessor.apply
(processors.py:194-200): each option whose `m_Text` is a key of the map
is overwritten, all others pass through. -/
def dropdownPatch (m : List (Str × Str)) : List DOption → List DOption × Bool
  | [] => ([], false)
  | o :: rest =>
    let r := dropdownPatch m rest
    match o.m_Text with
    | some s =>
      match lookupLast m s with
      | some t => ({ o with m_Text := some t } :: r.1, true)
      | none => (o :: r.1, r.2)
    | none => (o :: r.1, r.2)

/-- DropdownProcessor.apply (processors.py:182-204). -/
def dropdownApply (opts : List DOption) (g : List PEntry) : List DOption × Bool :=
  if g.isEmpty then (opts, false)
  else
    let m := dropdownMap g
    if m.isEmpty then (opts, false)
    else dropdownPatch m opts

/-- The conditional `save_typetree` of DropdownProcessor.apply
(processors.py:202-203). -/
def dropdownSaved (opts : List DOption) (g : List PEntry) : Option (List DOption) :=
  if (dropdownApply opts g).2 then some (dropdownApply opts g).1 else none

/-- The closed set of built-in processors. -/
inductive ProcKind where
  | itemController
  | dropdown
  | text
deriving DecidableEq

/-- The three `can_handle` class methods (processors.py:46-48, 99-101,
157-159): a case-insensitive substring test. -/
def canHandle : ProcKind → Str → Bool
  | .itemController, s => subOccurs "itemcontroller".data (toLowerStr s)
  | .dropdown, s => subOccurs "dropdown".data (toLowerStr s)
  | .text, s => subOccurs "text".data (toLowerStr s)

/-- `PROCESSOR_CLASSES` (processors.py:208-212): the fixed registration
order, TextProcessor last because it is generic. -/
def PROCESSOR_CLASSES : List ProcKind := [.itemController, .dropdown, .text]

/-- The linear scan of `get_processor_for_script` (processors.py:216-219). -/
def findProcessor : List ProcKind → Str → Option ProcKind
  | [], _ => none
  | p :: rest, s => if canHandle p s then some p else findProcessor rest s

/-- `get_processor_for_script` (processors.py:214-219). -/
def getProcessorForScript (s : Str) : Option ProcKind :=
  findProcessor PROCESSOR_CLASSES s

/-- The record prefilter of `core_apply` (operations.py:49):
`[e for e in trans_data if e and e.get("context")]` — JSON `null`
entries (`none`) and entries with a missing/empty context are dropped;
nothing about the translation is checked here. -/
def entryUsable : Option PEntry → Option PEntry
  | none => none
  | some e => if e.context.isEmpty then none else some e

/-- The filtered record list `translated_entries` of `core_apply`. -/
def translatedEntries (td : List (Option PEntry)) : List PEntry :=
  td.filterMap entryUsable

/-- `entry_map[key].append(entry)` with `entry_map[key] = []` on a fresh
key (operations.py:62-64): insertion-ordered dict of growing groups. -/
def groupAdd (m : List ((Nat × Str × Nat) × List PEntry)) (k : Nat × Str × Nat) (e : PEntry) :
    List ((Nat × Str × Nat) × List PEntry) :=
  match m with
  | [] => [(k, [e])]
  | (k', l) :: rest => if k' = k then (k', l ++ [e]) :: rest else (k', l) :: groupAdd rest k e

/-- Keyed lookup in an assoc list whose keys are unique (a Python dict
read). -/
def alistLookup {κ β : Type} [DecidableEq κ] : List (κ × β) → κ → Option β
  | [], _ => none
  | (k', v) :: rest, k => if k' = k then some v else alistLookup rest k

/-- The grouping loop of `core_apply` (operations.py:52-67): decodable
records are appended to their identity's group, undecodable ones are
skipped with a warning and leave the map untouched. -/
def entryGroups (td : List (Option PEntry)) : List ((Nat × Str × Nat) × List PEntry) :=
  (translatedEntries td).foldl
    (fun m e =>
      match decodeApplyCtx e.context with
      | some k => groupAdd m k e
      | none => m)
    []

/-- `dict[key] = value` on an insertion-ordered dict: overwrite in place,
or append a fresh key at the end. -/
def alistSet {κ β : Type} [DecidableEq κ] : List (κ × β) → κ → β → List (κ × β)
  | [], k, v => [(k, v)]
  | (k', v') :: rest, k, v => if k' = k then (k, v) :: rest else (k', v') :: alistSet rest k v

/-- One iteration of the duplicate-key scan of `extract`
(asset_translator.py:89-95), on the state `(keys_seen, duplicates)`. -/
def dupStep (st : List (Str × Str) × List (Str × List Str)) (e : PEntry) :
    List (Str × Str) × List (Str × List Str) :=
  match alistLookup st.1 e.key with
  | some firstCtx =>
    match alistLookup st.2 e.key with
    | some l => (st.1, alistSet st.2 e.key (l ++ [e.context]))
    | none => (st.1, alistSet st.2 e.key [firstCtx, e.context])
  | none => (alistSet st.1 e.key e.context, st.2)

/-- The `duplicates` dict after the duplicate-key scan of `extract`
(asset_translator.py:86-95). -/
def collectDuplicates (entries : List PEntry) : List (Str × List Str) :=
  (entries.foldl dupStep ([], [])).2

/-- What `extract` does with the extraction result
(asset_translator.py:85-108): the dumped entry list — unchanged by the
duplicate scan — together with the reported collision dict. -/
def extractFinalize (entries : List PEntry) : List PEntry × List (Str × List Str) :=
  (entries, collectDuplicates entries)

/-- The contexts, in order, of all entries sharing a key — what a
faithful collision report for that key must list. -/
def dupCtxs (es : List PEntry) (k : Str) : List Str :=
  (es.filter (fun e => decide (e.key = k))).map (fun e => e.context)

/-- The fields of a TMP_FontAsset typetree that `font_asset_adoption`
touches (operations.py:101-122); nested dict paths are flattened to one
field each, atlas-texture entries keep only their optional `m_PathID`,
and the two optional `m_CreationSettings` keys are `Option`s. -/
structure FontTree where
  scriptPathID : Int
  name : Str
  hashCode : Int
  materialPathID : Int
  materialHashCode : Int
  sourceFontFileGUID : Str
  familyName : Str
  atlasTextures : List (Option Int)
  creationSourceGUID : Option Str
  creationReferencedGUID : Option Str
deriving DecidableEq

instance : Inhabited FontTree := ⟨⟨0, [], 0, 0, 0, [], [], [], none, none⟩⟩

/-- The atlas-texture loop of `font_asset_adoption`
(operations.py:114-116): position `i` of the source list takes the
target's `m_PathID` when the target has an entry there carrying one. -/
def adoptAtlas (src tgt : List (Option Int)) : List (Option Int) :=
  src.mapIdx (fun i s =>
    match tgt.get? i with
    | some (some p) => some p
    | _ => s)

/-- `font_asset_adoption` (operations.py:101-122): the source tree with
the target's reference metadata copied over. -/
def font_asset_adoption (src tgt : FontTree) : FontTree :=
  { src with
    scriptPathID := tgt.scriptPathID
    name := tgt.name
    hashCode := tgt.hashCode
    materialPathID := tgt.materialPathID
    materialHashCode := tgt.materialHashCode
    sourceFontFileGUID := tgt.sourceFontFileGUID
    familyName := tgt.familyName
    atlasTextures := adoptAtlas src.atlasTextures tgt.atlasTextures
    creationSourceGUID :=
      match tgt.creationSourceGUID with
      | some x => some x
      | none => src.creationSourceGUID
    creationReferencedGUID :=
      match tgt.creationReferencedGUID with
      | some x => some x
      | none => src.creationReferencedGUID }

/-- A Texture2D object's consumed attributes; the opaque bitmap payload
is identified abstractly by a number. -/
structure TexData where
  name : Str
  image : Nat
  width : Int
  height : Int
deriving DecidableEq

instance : Inhabited TexData := ⟨⟨[], 0, 0, 0⟩⟩

/-- A Material typetree: its name and, when `m_SavedProperties` is
present, the `m_Floats` pair list (Python floats embedded as ℚ,
`0.1 ↦ 1/10`). -/
structure MatTree where
  name : Str
  floats : Option (List (Str × Rat))
deriving DecidableEq

instance : Inhabited MatTree := ⟨⟨[], none⟩⟩

/-- One object of a loaded environment, as `core_change_font` consumes
it: a MonoBehaviour (with its script name and font typetree), a
Texture2D, or a Material. -/
inductive CFObj where
  | mono (pid : Int) (script : Str) (tree : FontTree)
  | tex (pid : Int) (d : TexData)
  | mat (pid : Int) (m : MatTree)
deriving DecidableEq

instance : Inhabited CFObj := ⟨.mono 0 [] default⟩

/-- One side (`source` or `target`) of the font-change config:
each section optional, holding the `path_id` list (and for textures and
materials the parallel `name` list). -/
structure SideConfig where
  font_assets : Option (List Int)
  textures : Option (List Int × List Str)
  materials : Option (List Int × List Str)

/-- The scanning loop of `build_maps` (operations.py:134-157), indexing
objects by position so that a mapped object can later be mutated in
place; later scans of an already-mapped key overwrite (Python dict). -/
def buildMapsAux (cfg : SideConfig) : Nat → List CFObj →
    List (Int × Nat) × List ((Int × Str) × Nat) × List ((Int × Str) × Nat)
  | _, [] => ([], [], [])
  | i, o :: rest =>
    let r := buildMapsAux cfg (i + 1) rest
    match o with
    | .mono pid script _ =>
      if cfg.font_assets.isSome && decide (pid ∈ cfg.font_assets.getD [])
         && decide (script = "TMP_FontAsset".data)
      then ((pid, i) :: r.1, r.2.1, r.2.2) else r
    | .tex pid d =>
      if cfg.textures.isSome && decide (pid ∈ (cfg.textures.getD ([], [])).1)
         && decide (d.name ∈ (cfg.textures.getD ([], [])).2)
      then (r.1, ((pid, d.name), i) :: r.2.1, r.2.2) else r
    | .mat pid m =>
      if cfg.materials.isSome && decide (pid ∈ (cfg.materials.getD ([], [])).1)
         && decide (m.name ∈ (cfg.materials.getD ([], [])).2)
      then (r.1, r.2.1, ((pid, m.name), i) :: r.2.2) else r

/-- `build_maps` (operations.py:134-157). -/
def build_maps (env : List CFObj) (cfg : SideConfig) :
    List (Int × Nat) × List ((Int × Str) × Nat) × List ((Int × Str) × Nat) :=
  buildMapsAux cfg 0 env

/-- Read the font typetree of the environment object at index `i`. -/
def getMonoTree (env : List CFObj) (i : Nat) : FontTree :=
  match env.get? i with
  | some (.mono _ _ t) => t
  | _ => default

/-- `save_typetree` on the MonoBehaviour at index `i`. -/
def setMonoTree (env : List CFObj) (i : Nat) (t : FontTree) : List CFObj :=
  env.set i
    (match env.get? i with
     | some (.mono p s _) => .mono p s t
     | some o => o
     | none => default)

/-- Read the texture data of the environment object at index `i`. -/
def getTex (env : List CFObj) (i : Nat) : TexData :=
  match env.get? i with
  | some (.tex _ d) => d
  | _ => default

/-- `data.save()` on the Texture2D at index `i`. -/
def setTex (env : List CFObj) (i : Nat) (d : TexData) : List CFObj :=
  env.set i
    (match env.get? i with
     | some (.tex p _) => .tex p d
     | some o => o
     | none => default)

/-- Read the material typetree of the environment object at index `i`. -/
def getMat (env : List CFObj) (i : Nat) : MatTree :=
  match env.get? i with
  | some (.mat _ m) => m
  | _ => default

/-- `save_typetree` on the Material at index `i`. -/
def setMat (env : List CFObj) (i : Nat) (m : MatTree) : List CFObj :=
  env.set i
    (match env.get? i with
     | some (.mat p _) => .mat p m
     | some o => o
     | none => default)

/-- The `ValueError` message of the font-asset pair loop
(operations.py:167). -/
def fontErr (s t : Int) : Str :=
  "PathID mapping for font asset (MonoBehaviour) ".data ++ intToStr s ++
  "->".data ++ intToStr t ++ " is invalid.".data

/-- The `ValueError` message of the texture pair loop (operations.py:182). -/
def texErr (s t : Int) : Str :=
  "PathID mapping for texture (Texture2D) ".data ++ intToStr s ++
  "->".data ++ intToStr t ++ " is invalid.".data

/-- The `ValueError` message of the material loop (operations.py:193). -/
def matErr (p : Int) : Str :=
  "PathID mapping for material (Material) ".data ++ intToStr p ++ " is invalid.".data

/-- The transplant one resolvable font-asset pair performs: the target
object's tree is replaced by the adoption of the source tree onto the
current target tree.  An unresolvable pair leaves the environment as is
(the loop raises there instead). -/
def applyFontPair (srcEnv : List CFObj) (srcMap tgtMap : List (Int × Nat))
    (env : List CFObj) (pr : Int × Int) : List CFObj :=
  match lookupLast srcMap pr.1, lookupLast tgtMap pr.2 with
  | some si, some ti =>
    setMonoTree env ti (font_asset_adoption (getMonoTree srcEnv si) (getMonoTree env ti))
  | _, _ => env

/-- The font-asset pair loop of `core_change_font`
(operations.py:162-172): sequential transplants; the first pair that
does not resolve on both sides raises, keeping every earlier transplant. -/
def fontPhase (srcEnv : List CFObj) (srcMap tgtMap : List (Int × Nat)) :
    List (Int × Int) → List CFObj → List CFObj × Option Str
  | [], env => (env, none)
  | pr :: rest, env =>
    match lookupLast srcMap pr.1, lookupLast tgtMap pr.2 with
    | some si, some ti =>
      fontPhase srcEnv srcMap tgtMap rest
        (setMonoTree env ti (font_asset_adoption (getMonoTree srcEnv si) (getMonoTree env ti)))
    | _, _ => (env, some (fontErr pr.1 pr.2))

/-- The transplant one resolvable texture quadruple performs: the
target texture takes the donor's image payload and dimensions.  An
unresolvable quadruple leaves the environment as is (the loop raises
there instead). -/
def applyTexQuad (srcEnv : List CFObj) (srcMap tgtMap : List ((Int × Str) × Nat))
    (env : List CFObj) (q : (Int × Str) × Int × Str) : List CFObj :=
  match lookupLast srcMap q.1, lookupLast tgtMap q.2 with
  | some si, some ti =>
    setTex env ti
      { getTex env ti with
        image := (getTex srcEnv si).image
        width := (getTex srcEnv si).width
        height := (getTex srcEnv si).height }
  | _, _ => env

/-- The texture pair loop of `core_change_font` (operations.py:174-187). -/
def texPhase (srcEnv : List CFObj) (srcMap tgtMap : List ((Int × Str) × Nat)) :
    List ((Int × Str) × Int × Str) → List CFObj → List CFObj × Option Str
  | [], env => (env, none)
  | q :: rest, env =>
    match lookupLast srcMap q.1, lookupLast tgtMap q.2 with
    | some si, some ti =>
      texPhase srcEnv srcMap tgtMap rest
        (setTex env ti
          { getTex env ti with
            image := (getTex srcEnv si).image
            width := (getTex srcEnv si).width
            height := (getTex srcEnv si).height })
    | _, _ => (env, some (texErr q.1.1 q.2.1))

/-- The float-patching loop of the material phase (operations.py:198-200):
`_UnderlayOffsetX ↦ 0.1`, `_UnderlayOffsetY ↦ -0.1`, everything else kept. -/
def patchFloats : List (Str × Rat) → List (Str × Rat) × Bool
  | [] => ([], false)
  | (n, v) :: rest =>
    let r := patchFloats rest
    if n = "_UnderlayOffsetX".data then ((n, (1 : Rat)/10) :: r.1, true)
    else if n = "_UnderlayOffsetY".data then ((n, -((1 : Rat)/10)) :: r.1, true)
    else ((n, v) :: r.1, r.2)

/-- The mutation one resolvable material pair performs: when
`m_SavedProperties` is present and a patched float exists, the patched
float list is saved; otherwise nothing changes.  An unresolvable pair
leaves the environment as is (the loop raises there instead). -/
def applyMatPair (tgtMap : List ((Int × Str) × Nat)) (env : List CFObj) (p : Int × Str) :
    List CFObj :=
  match lookupLast tgtMap p with
  | some i =>
    match (getMat env i).floats with
    | none => env
    | some fl =>
      if (patchFloats fl).2 then setMat env i { getMat env i with floats := some (patchFloats fl).1 }
      else env
  | none => env

/-- The material loop of `core_change_font` (operations.py:189-203). -/
def matPhase (tgtMap : List ((Int × Str) × Nat)) :
    List (Int × Str) → List CFObj → List CFObj × Option Str
  | [], env => (env, none)
  | p :: rest, env =>
    match lookupLast tgtMap p with
    | none => (env, some (matErr p.1))
    | some i =>
      match (getMat env i).floats with
      | none => matPhase tgtMap rest env
      | some fl =>
        if (patchFloats fl).2 then
          matPhase tgtMap rest (setMat env i { getMat env i with floats := some (patchFloats fl).1 })
        else matPhase tgtMap rest env

/-- `core_change_font` (operations.py:125-205): build both sides' maps,
then run the three phases in order; each phase runs only when its guard
dicts are non-empty, and a raised `ValueError` (second component) stops
everything after it while keeping the mutations already made. -/
def core_change_font (tgtEnv srcEnv : List CFObj) (srcCfg tgtCfg : SideConfig) :
    List CFObj × Option Str :=
  let src := build_maps srcEnv srcCfg
  let tgt := build_maps tgtEnv tgtCfg
  let f1 :=
    if !src.1.isEmpty && !tgt.1.isEmpty then
      fontPhase srcEnv src.1 tgt.1
        (List.zip (srcCfg.font_assets.getD []) (tgtCfg.font_assets.getD [])) tgtEnv
    else (tgtEnv, none)
  match f1.2 with
  | some e => (f1.1, some e)
  | none =>
    let f2 :=
      if !src.2.1.isEmpty && !tgt.2.1.isEmpty then
        texPhase srcEnv src.2.1 tgt.2.1
          (List.zip
            (List.zip (srcCfg.textures.getD ([], [])).1 (srcCfg.textures.getD ([], [])).2)
            (List.zip (tgtCfg.textures.getD ([], [])).1 (tgtCfg.textures.getD ([], [])).2))
          f1.1
      else (f1.1, none)
    match f2.2 with
    | some e => (f2.1, some e)
    | none =>
      if !tgt.2.2.isEmpty then
        matPhase tgt.2.2
          (List.zip (tgtCfg.materials.getD ([], [])).1 (tgtCfg.materials.getD ([], [])).2)
          f2.1
      else (f2.1, none)

/-- Spec-side description of the item patch (claim C5's words, with the
non-empty-field guard the code imposes): one item is rewritten exactly
when its name and description are non-empty and its `category_name` key
is bound in the map. -/
def itemPatchSpec (m : List (Str × Str)) (cat : Str) (it : Item) : Item :=
  if it.name.isEmpty || it.description.isEmpty then it
  else
    match lookupLast m (cat ++ '_' :: it.name) with
    | some t => { it with description := t }
    | none => it

/-- Spec-side description of ItemControllerProcessor.apply's data result:
every category list mapped elementwise by `itemPatchSpec`. -/
def itemApplySpecFn (m : List (Str × Str)) (d : ItemData) : ItemData :=
  { commonItems := d.commonItems.map (itemPatchSpec m "commonItems".data)
    rareItems := d.rareItems.map (itemPatchSpec m "rareItems".data)
    legendaryItems := d.legendaryItems.map (itemPatchSpec m "legendaryItems".data)
    specialItems := d.specialItems.map (itemPatchSpec m "specialItems".data)
    mythicItems := d.mythicItems.map (itemPatchSpec m "mythicItems".data) }

/-- Spec-side description of when one item is patched. -/
def itemHitSpec (m : List (Str × Str)) (cat : Str) (it : Item) : Bool :=
  !it.name.isEmpty && !it.description.isEmpty && (lookupLast m (cat ++ '_' :: it.name)).isSome

/-- Spec-side description of ItemControllerProcessor.apply's return flag:
some item was patched. -/
def itemModifiedSpec (m : List (Str × Str)) (d : ItemData) : Bool :=
  ITEM_CATEGORIES.any (fun c => (getCategory d c).any (itemHitSpec m c))

/-- Spec-side per-option description of the dropdown patch (claim C3's
words): an option whose text is bound in the map is overwritten, any
other option is untouched. -/
def dropdownPatchSpec (m : List (Str × Str)) (o : DOption) : DOption :=
  match o.m_Text with
  | some s =>
    match lookupLast m s with
    | some t => { o with m_Text := some t }
    | none => o
  | none => o

/-! ### Helper lemmas: digits and characters -/

theorem digitChar_is_digit (k : Nat) : isAsciiDigit (digitChar k) = true := by
  unfold digitChar
  rcases k with _|_|_|_|_|_|_|_|_|_ <;> rfl

theorem natToDigits_ne_nil (n : Nat) : natToDigits n ≠ [] := by
  unfold natToDigits natToDigitsGo
  split <;> simp

theorem natToDigitsGo_all_digit (fuel : Nat) :
    ∀ n, ∀ c ∈ natToDigitsGo fuel n, isAsciiDigit c = true := by
  induction fuel with
  | zero => intro n c hc; simp [natToDigitsGo] at hc
  | succ fuel ih =>
    intro n c hc
    unfold natToDigitsGo at hc
    split at hc
    · simp only [List.mem_singleton] at hc
      subst hc
      exact digitChar_is_digit n
    · rcases List.mem_append.mp hc with h | h
      · exact ih (n / 10) c h
      · simp only [List.mem_singleton] at h
        subst h
        exact digitChar_is_digit (n % 10)

theorem natToDigits_all_digit (n : Nat) : ∀ c ∈ natToDigits n, isAsciiDigit c = true :=
  natToDigitsGo_all_digit (n + 1) n

theorem charVal_digitChar (k : Nat) (hk : k < 10) : charVal (digitChar k) = k := by
  interval_cases k <;> decide

theorem digitsGo_foldl (fuel : Nat) :
    ∀ n a, n < fuel →
      (natToDigitsGo fuel n).foldl (fun x c => x * 10 + charVal c) a =
        a * 10 ^ (natToDigitsGo fuel n).length + n := by
  induction fuel with
  | zero => intro n a h; omega
  | succ fuel ih =>
    intro n a hn
    unfold natToDigitsGo
    split
    · next h =>
      simp [List.foldl, charVal_digitChar n h]
    · next h =>
      rw [List.foldl_append]
      have hdiv : n / 10 < n := Nat.div_lt_self (by omega) (by omega)
      rw [ih (n / 10) a (by omega)]
      simp only [List.foldl, List.length_append, List.length_singleton]
      rw [charVal_digitChar (n % 10) (Nat.mod_lt n (by omega))]
      rw [pow_succ]
      have := Nat.div_add_mod n 10
      ring_nf
      omega

theorem digits_foldl (n a : Nat) :
    (natToDigits n).foldl (fun x c => x * 10 + charVal c) a =
      a * 10 ^ (natToDigits n).length + n :=
  digitsGo_foldl (n + 1) n a (by omega)

theorem digitsToNat_natToDigits (n : Nat) : digitsToNat (natToDigits n) = n := by
  have := digits_foldl n 0
  simpa [digitsToNat] using this

theorem digit_not_space {c : Char} (h : isAsciiDigit c = true) : isPySpace c = false := by
  by_contra hc
  rw [Bool.not_eq_false] at hc
  simp only [isPySpace, Bool.or_eq_true, decide_eq_true_eq] at hc
  rcases hc with ((((h1 | h1) | h1) | h1) | h1) | h1 <;>
    · subst h1; simp [isAsciiDigit] at h

theorem digit_ne_of_not_digit {c x : Char} (h : isAsciiDigit c = true)
    (hx : isAsciiDigit x = false) : c ≠ x := by
  intro he
  subst he
  exact absurd (h.symm.trans hx) (by simp)

/-! ### Helper lemmas: substring occurrence and the search scan -/

theorem isPrefixOf_nil_left (t : Str) : ([] : Str).isPrefixOf t = true := by
  simp [List.isPrefixOf]

theorem isPrefixOf_cons_nil (a : Char) (as : Str) :
    (a :: as).isPrefixOf ([] : Str) = false := by
  simp [List.isPrefixOf]

theorem isPrefixOf_cons_cons (a b : Char) (as bs : Str) :
    (a :: as).isPrefixOf (b :: bs) = (a == b && as.isPrefixOf bs) := by
  simp [List.isPrefixOf]

theorem isPrefixOf_append_self (l t : Str) : l.isPrefixOf (l ++ t) = true := by
  induction l with
  | nil => exact isPrefixOf_nil_left _
  | cons a as ih => rw [List.cons_append, isPrefixOf_cons_cons, ih]; simp

theorem isPrefixOf_take {l s : Str} (n : Nat) (h : l.isPrefixOf s = true)
    (hn : l.length ≤ n) : l.isPrefixOf (s.take n) = true := by
  induction l generalizing s n with
  | nil => exact isPrefixOf_nil_left _
  | cons a as ih =>
    cases s with
    | nil => rw [isPrefixOf_cons_nil] at h; exact absurd h (by simp)
    | cons b bs =>
      cases n with
      | zero => simp at hn
      | succ n' =>
        rw [isPrefixOf_cons_cons, Bool.and_eq_true] at h
        rw [List.take_succ_cons, isPrefixOf_cons_cons, h.1, ih n' h.2 (by simpa using hn)]
        rfl

theorem isPrefixOf_append_cons_eq (pat R Q : Str) (hnl : ∀ c ∈ pat, c ≠ '\n') :
    pat.isPrefixOf (R ++ '\n' :: Q) = pat.isPrefixOf R := by
  induction pat generalizing R with
  | nil => rw [isPrefixOf_nil_left, isPrefixOf_nil_left]
  | cons p pt ih =>
    cases R with
    | nil =>
      have hp : p ≠ '\n' := hnl p (by simp)
      rw [List.nil_append, isPrefixOf_cons_cons, isPrefixOf_cons_nil]
      have : (p == '\n') = false := by simpa using hp
      rw [this, Bool.false_and]
    | cons r rs =>
      rw [List.cons_append, isPrefixOf_cons_cons, isPrefixOf_cons_cons]
      rw [ih rs (fun c hc => hnl c (by simp [hc]))]

theorem subOccurs_nil_pat (s : Str) : subOccurs [] s = true := by
  cases s with
  | nil => rfl
  | cons a as => simp [subOccurs, isPrefixOf_nil_left]

theorem subOccurs_false_of_head {c : Char} {pt s : Str} (h : ∀ x ∈ s, x ≠ c) :
    subOccurs (c :: pt) s = false := by
  induction s with
  | nil => rfl
  | cons a as ih =>
    have ha : a ≠ c := h a (by simp)
    have hpre : (c :: pt).isPrefixOf (a :: as) = false := by
      rw [isPrefixOf_cons_cons]
      have : (c == a) = false := by
        simp
        exact fun he => ha he.symm
      rw [this, Bool.false_and]
    simp only [subOccurs, hpre, Bool.false_or]
    exact ih (fun x hx => h x (by simp [hx]))

theorem subOccurs_append_cons (pat P Q : Str) (hnl : ∀ c ∈ pat, c ≠ '\n') :
    subOccurs pat (P ++ '\n' :: Q) = (subOccurs pat P || subOccurs pat Q) := by
  cases pat with
  | nil => simp [subOccurs_nil_pat]
  | cons p pt =>
    induction P with
    | nil =>
      have hp : p ≠ '\n' := hnl p (by simp)
      have hpre : (p :: pt).isPrefixOf ('\n' :: Q) = false := by
        rw [isPrefixOf_cons_cons]
        have : (p == '\n') = false := by simpa using hp
        rw [this, Bool.false_and]
      simp only [List.nil_append, subOccurs, hpre, Bool.false_or]
      simp
    | cons a P' ihP =>
      simp only [List.cons_append, subOccurs, List.append_eq]
      rw [ihP]
      have heq : (p :: pt).isPrefixOf (a :: (P' ++ '\n' :: Q)) = (p :: pt).isPrefixOf (a :: P') := by
        have := isPrefixOf_append_cons_eq (p :: pt) (a :: P') Q hnl
        simpa using this
      rw [heq, Bool.or_assoc]

theorem reSearch_skip {α : Type} (label : Str) (m : Str → Option α) (A B : Str)
    (hlab : label ≠ []) (h : subOccurs label (A ++ label.dropLast) = false) :
    reSearch label m (A ++ label ++ B) = reSearch label m (label ++ B) := by
  induction A with
  | nil => simp
  | cons a A' ih =>
    have hpre : label.isPrefixOf (a :: (A' ++ label ++ B)) = false := by
      by_contra hcon
      rw [Bool.not_eq_false] at hcon
      have hlen : label.length ≤ (a :: A').length + (label.length - 1) := by
        have : 1 ≤ (a :: A').length := by simp
        omega
      have htake := isPrefixOf_take ((a :: A').length + (label.length - 1)) hcon hlen
      have heq : (a :: (A' ++ label ++ B)).take ((a :: A').length + (label.length - 1)) =
          (a :: A') ++ label.dropLast := by
        have h1 : a :: (A' ++ label ++ B) = (a :: A') ++ (label ++ B) := by simp
        rw [h1, List.take_append_eq_append_take]
        have h2 : ((a :: A').length + (label.length - 1)) - (a :: A').length =
            label.length - 1 := by omega
        rw [h2, List.take_of_length_le (by omega)]
        rw [List.take_append_eq_append_take]
        have h3 : label.length - 1 - label.length = 0 := by omega
        rw [h3, List.take_zero, List.append_nil, ← List.dropLast_eq_take]
      rw [heq] at htake
      have hso : subOccurs label (a :: (A' ++ label.dropLast)) = true := by
        simp only [subOccurs, Bool.or_eq_true]
        left
        simpa using htake
      have h' : subOccurs label (a :: (A' ++ label.dropLast)) = false := by
        simpa using h
      rw [h'] at hso
      exact absurd hso (by simp)
    have hA : subOccurs label (A' ++ label.dropLast) = false := by
      have h' : subOccurs label (a :: (A' ++ label.dropLast)) = false := by
        simpa using h
      simp only [subOccurs, Bool.or_eq_false_iff] at h'
      exact h'.2
    calc reSearch label m ((a :: A') ++ label ++ B)
        = reSearch label m (a :: (A' ++ label ++ B)) := by simp
      _ = reSearch label m (A' ++ label ++ B) := by
          simp only [reSearch, tryAt, hpre, Bool.false_eq_true, if_false]
      _ = reSearch label m (label ++ B) := ih hA

theorem reSearch_hit {α : Type} (label : Str) (m : Str → Option α) (B : Str)
    (hlab : label ≠ []) {x : α} (hm : m B = some x) :
    reSearch label m (label ++ B) = some x := by
  obtain ⟨c, l', hcl⟩ := List.exists_cons_of_ne_nil hlab
  subst hcl
  have hpre : ((c :: l') ++ B).drop (c :: l').length = B := List.drop_left _ _
  rw [List.cons_append]
  simp only [reSearch, tryAt]
  have hself : (c :: l').isPrefixOf (c :: (l' ++ B)) = true := by
    have := isPrefixOf_append_self (c :: l') B
    simpa using this
  rw [hself]
  simp only [if_true]
  rw [List.cons_append] at hpre
  rw [hpre, hm]

theorem reSearch_located {α : Type} (label : Str) (m : Str → Option α) (A B : Str)
    (hlab : label ≠ []) (h : subOccurs label (A ++ label.dropLast) = false)
    {x : α} (hm : m B = some x) :
    reSearch label m (A ++ label ++ B) = some x := by
  rw [reSearch_skip label m A B hlab h]
  exact reSearch_hit label m B hlab hm

theorem takeWhile_append_all {p : Char → Bool} {D rest : Str}
    (hD : ∀ c ∈ D, p c = true) (hrest : ∀ c, rest.head? = some c → p c = false) :
    (D ++ rest).takeWhile p = D := by
  induction D with
  | nil =>
    cases rest with
    | nil => rfl
    | cons r rs =>
      have := hrest r (by simp)
      simp [List.takeWhile_cons, this]
  | cons d D' ih =>
    have hd := hD d (by simp)
    simp only [List.cons_append, List.takeWhile_cons, hd, if_true]
    rw [ih (fun c hc => hD c (by simp [hc]))]

theorem dropWhile_cons_of_neg {p : Char → Bool} {a : Char} (l : Str) (h : p a = false) :
    (a :: l).dropWhile p = a :: l := by
  simp [List.dropWhile_cons, h]

theorem matchNat_landing (n : Nat) (rest : Str)
    (hrest : ∀ c, rest.head? = some c → isAsciiDigit c = false) :
    matchNat (' ' :: (natToDigits n ++ rest)) = some n := by
  obtain ⟨d, D', hD⟩ := List.exists_cons_of_ne_nil (natToDigits_ne_nil n)
  have hall := natToDigits_all_digit n
  have hdrop : (' ' :: (natToDigits n ++ rest)).dropWhile isPySpace = natToDigits n ++ rest := by
    have hsp : isPySpace ' ' = true := by decide
    rw [List.dropWhile_cons]
    simp only [hsp, if_true]
    rw [hD, List.cons_append]
    apply dropWhile_cons_of_neg
    exact digit_not_space (hall d (by rw [hD]; simp))
  have htake : (natToDigits n ++ rest).takeWhile isAsciiDigit = natToDigits n :=
    takeWhile_append_all hall hrest
  simp only [matchNat, hdrop, htake]
  have hne : (natToDigits n).isEmpty = false := by
    rw [hD]; rfl
  rw [hne]
  simp [digitsToNat_natToDigits n]

theorem matchLine_landing (v rest : Str) (h1 : v ≠ [])
    (h2 : ∀ c, v.head? = some c → isPySpace c = false)
    (h3 : ∀ c ∈ v, c ≠ '\n')
    (hrest : rest = [] ∨ rest.head? = some '\n') :
    matchLine (' ' :: (v ++ rest)) = some v := by
  obtain ⟨a, v', hv⟩ := List.exists_cons_of_ne_nil h1
  have hdrop : (' ' :: (v ++ rest)).dropWhile isPySpace = v ++ rest := by
    have hsp : isPySpace ' ' = true := by decide
    rw [List.dropWhile_cons]
    simp only [hsp, if_true]
    rw [hv, List.cons_append]
    exact dropWhile_cons_of_neg _ (h2 a (by rw [hv]; rfl))
  have htake : (v ++ rest).takeWhile (fun x => x ≠ '\n') = v := by
    apply takeWhile_append_all
    · intro c hc
      simpa using h3 c hc
    · intro c hc
      rcases hrest with hr | hr
      · subst hr; simp at hc
      · rw [hr] at hc
        injection hc with hc
        subst hc
        simp
  simp only [matchLine, hdrop]
  rw [hv, List.cons_append]
  simp only []
  rw [← List.cons_append, ← hv, htake]

/-! ### The context codec: locating each label in an encoded context -/

theorem data_nl : "\n".data = ['\n'] := rfl

theorem pid_label_split : "PathID: ".data = pathIDLabel ++ [' '] := rfl

theorem script_label_split : "Script: ".data = scriptLabel ++ [' '] := rfl

theorem gid_label_split : "GameObjectID: ".data = gidLabel ++ [' '] := rfl

theorem json_label_split : "JsonPath: ".data = jsonPathLabel ++ [' '] := rfl

theorem pathIDLabel_cons : pathIDLabel = 'P' :: "athID:".data := rfl

theorem scriptLabel_cons : scriptLabel = 'S' :: "cript:".data := rfl

theorem jsonPathLabel_cons : jsonPathLabel = 'J' :: "sonPath:".data := rfl

theorem mem_append_digits_ne {c : Char} {A : Str} (n : Nat)
    (hA : ∀ x ∈ A, x ≠ c) (hc : isAsciiDigit c = false) :
    ∀ x ∈ A ++ natToDigits n, x ≠ c := by
  intro x hx
  rcases List.mem_append.mp hx with h | h
  · exact hA x h
  · exact digit_ne_of_not_digit (natToDigits_all_digit n x h) hc

theorem no_pid_in_gid_line (g : Nat) :
    subOccurs pathIDLabel ("GameObjectID: ".data ++ natToDigits g) = false := by
  rw [pathIDLabel_cons]
  apply subOccurs_false_of_head
  exact mem_append_digits_ne g (by decide) (by decide)

theorem no_script_in_gid_line (g : Nat) :
    subOccurs scriptLabel ("GameObjectID: ".data ++ natToDigits g) = false := by
  rw [scriptLabel_cons]
  apply subOccurs_false_of_head
  exact mem_append_digits_ne g (by decide) (by decide)

theorem no_script_in_pid_line (p : Nat) :
    subOccurs scriptLabel ("PathID: ".data ++ natToDigits p) = false := by
  rw [scriptLabel_cons]
  apply subOccurs_false_of_head
  exact mem_append_digits_ne p (by decide) (by decide)

theorem no_json_in_gid_line (g : Nat) :
    subOccurs jsonPathLabel ("GameObjectID: ".data ++ natToDigits g) = false := by
  rw [jsonPathLabel_cons]
  apply subOccurs_false_of_head
  exact mem_append_digits_ne g (by decide) (by decide)

theorem no_json_in_pid_line (p : Nat) :
    subOccurs jsonPathLabel ("PathID: ".data ++ natToDigits p) = false := by
  rw [jsonPathLabel_cons]
  apply subOccurs_false_of_head
  exact mem_append_digits_ne p (by decide) (by decide)

theorem text_pid_located (g p : Nat) (path script : Str)
    (hp1 : subOccurs pathIDLabel ("GameObjectPath: ".data ++ path) = false) :
    reSearch pathIDLabel matchNat (textContextStr (g : Int) path (p : Int) script) = some p := by
  have hshape : textContextStr (g : Int) path (p : Int) script =
      (("GameObjectID: ".data ++ natToDigits g) ++
        '\n' :: (("GameObjectPath: ".data ++ path) ++ ['\n']))
      ++ pathIDLabel ++ (' ' :: (natToDigits p ++ '\n' :: ("Script: ".data ++ script))) := by
    simp [textContextStr, intToStr, data_nl, pid_label_split, pathIDLabel, List.append_assoc]
  rw [hshape]
  apply reSearch_located
  · decide
  · have hdl : pathIDLabel.dropLast = "PathID".data := by decide
    rw [hdl]
    have hassoc :
        ((("GameObjectID: ".data ++ natToDigits g) ++
          '\n' :: (("GameObjectPath: ".data ++ path) ++ ['\n'])) ++ "PathID".data) =
        (("GameObjectID: ".data ++ natToDigits g) ++
          '\n' :: ((("GameObjectPath: ".data ++ path)) ++ '\n' :: "PathID".data)) := by
      simp
    rw [hassoc]
    rw [subOccurs_append_cons _ _ _ (by decide)]
    rw [subOccurs_append_cons _ _ _ (by decide)]
    rw [no_pid_in_gid_line g, hp1]
    have : subOccurs pathIDLabel ("PathID".data) = false := by decide
    rw [this]
    rfl
  · exact matchNat_landing p _ (fun c hc => by
      simp at hc
      rw [← hc]
      decide)

theorem text_script_located (g p : Nat) (path script : Str)
    (hp2 : subOccurs scriptLabel ("GameObjectPath: ".data ++ path) = false)
    (hs1 : script ≠ [])
    (hs2 : ∀ c, script.head? = some c → isPySpace c = false)
    (hs3 : ∀ c ∈ script, c ≠ '\n') :
    reSearch scriptLabel matchLine (textContextStr (g : Int) path (p : Int) script) = some script := by
  have hshape : textContextStr (g : Int) path (p : Int) script =
      (("GameObjectID: ".data ++ natToDigits g) ++
        '\n' :: ((("GameObjectPath: ".data ++ path) ++
          '\n' :: (("PathID: ".data ++ natToDigits p) ++ ['\n']))))
      ++ scriptLabel ++ (' ' :: script) := by
    simp [textContextStr, intToStr, data_nl, script_label_split, scriptLabel, List.append_assoc]
  rw [hshape]
  apply reSearch_located
  · decide
  · have hdl : scriptLabel.dropLast = "Script".data := by decide
    rw [hdl]
    have hassoc :
        ((("GameObjectID: ".data ++ natToDigits g) ++
          '\n' :: ((("GameObjectPath: ".data ++ path) ++
            '\n' :: (("PathID: ".data ++ natToDigits p) ++ ['\n'])))) ++ "Script".data) =
        (("GameObjectID: ".data ++ natToDigits g) ++
          '\n' :: (("GameObjectPath: ".data ++ path) ++
            '\n' :: (("PathID: ".data ++ natToDigits p) ++ '\n' :: "Script".data))) := by
      simp
    rw [hassoc]
    rw [subOccurs_append_cons _ _ _ (by decide)]
    rw [subOccurs_append_cons _ _ _ (by decide)]
    rw [subOccurs_append_cons _ _ _ (by decide)]
    rw [no_script_in_gid_line g, hp2, no_script_in_pid_line p]
    have : subOccurs scriptLabel ("Script".data) = false := by decide
    rw [this]
    rfl
  · have := matchLine_landing script [] hs1 hs2 hs3 (Or.inl rfl)
    simpa using this

theorem text_gid_located (g p : Nat) (path script : Str) :
    reSearch gidLabel matchNat (textContextStr (g : Int) path (p : Int) script) = some g := by
  have hshape : textContextStr (g : Int) path (p : Int) script =
      gidLabel ++ (' ' :: (natToDigits g ++
        '\n' :: ("GameObjectPath: ".data ++ path ++ "\n".data ++
          "PathID: ".data ++ natToDigits p ++ "\n".data ++ "Script: ".data ++ script))) := by
    simp [textContextStr, intToStr, data_nl, gid_label_split, gidLabel, List.append_assoc]
  rw [hshape]
  apply reSearch_hit _ _ _ (by decide)
  exact matchNat_landing g _ (fun c hc => by
    simp at hc
    rw [← hc]
    decide)

theorem item_pid_located (g p : Nat) (script cat name : Str) :
    reSearch pathIDLabel matchNat (itemContextStr (g : Int) (p : Int) script cat name) = some p := by
  have hshape : itemContextStr (g : Int) (p : Int) script cat name =
      (("GameObjectID: ".data ++ natToDigits g) ++ ['\n'])
      ++ pathIDLabel ++ (' ' :: (natToDigits p ++
        '\n' :: ("Script: ".data ++ script ++ "\n".data ++ "JsonPath: ".data ++ cat ++ "_".data ++ name))) := by
    simp [itemContextStr, intToStr, data_nl, pid_label_split, pathIDLabel, List.append_assoc]
  rw [hshape]
  apply reSearch_located
  · decide
  · have hdl : pathIDLabel.dropLast = "PathID".data := by decide
    rw [hdl]
    have hassoc :
        (((("GameObjectID: ".data ++ natToDigits g) ++ ['\n'])) ++ "PathID".data) =
        (("GameObjectID: ".data ++ natToDigits g) ++ '\n' :: "PathID".data) := by
      simp
    rw [hassoc]
    rw [subOccurs_append_cons _ _ _ (by decide)]
    rw [no_pid_in_gid_line g]
    have : subOccurs pathIDLabel ("PathID".data) = false := by decide
    rw [this]
    rfl
  · exact matchNat_landing p _ (fun c hc => by
      simp at hc
      rw [← hc]
      decide)

theorem item_script_located (g p : Nat) (script cat name : Str)
    (hs1 : script ≠ [])
    (hs2 : ∀ c, script.head? = some c → isPySpace c = false)
    (hs3 : ∀ c ∈ script, c ≠ '\n') :
    reSearch scriptLabel matchLine (itemContextStr (g : Int) (p : Int) script cat name) = some script := by
  have hshape : itemContextStr (g : Int) (p : Int) script cat name =
      (("GameObjectID: ".data ++ natToDigits g) ++
        '\n' :: (("PathID: ".data ++ natToDigits p) ++ ['\n']))
      ++ scriptLabel ++ (' ' :: (script ++
        '\n' :: ("JsonPath: ".data ++ cat ++ "_".data ++ name))) := by
    simp [itemContextStr, intToStr, data_nl, script_label_split, scriptLabel, List.append_assoc]
  rw [hshape]
  apply reSearch_located
  · decide
  · have hdl : scriptLabel.dropLast = "Script".data := by decide
    rw [hdl]
    have hassoc :
        ((("GameObjectID: ".data ++ natToDigits g) ++
          '\n' :: (("PathID: ".data ++ natToDigits p) ++ ['\n'])) ++ "Script".data) =
        (("GameObjectID: ".data ++ natToDigits g) ++
          '\n' :: (("PathID: ".data ++ natToDigits p) ++ '\n' :: "Script".data)) := by
      simp
    rw [hassoc]
    rw [subOccurs_append_cons _ _ _ (by decide)]
    rw [subOccurs_append_cons _ _ _ (by decide)]
    rw [no_script_in_gid_line g, no_script_in_pid_line p]
    have : subOccurs scriptLabel ("Script".data) = false := by decide
    rw [this]
    rfl
  · exact matchLine_landing script _ hs1 hs2 hs3 (Or.inr rfl)

theorem item_gid_located (g p : Nat) (script cat name : Str) :
    reSearch gidLabel matchNat (itemContextStr (g : Int) (p : Int) script cat name) = some g := by
  have hshape : itemContextStr (g : Int) (p : Int) script cat name =
      gidLabel ++ (' ' :: (natToDigits g ++
        '\n' :: ("PathID: ".data ++ natToDigits p ++ "\n".data ++
          "Script: ".data ++ script ++ "\n".data ++ "JsonPath: ".data ++ cat ++ "_".data ++ name))) := by
    simp [itemContextStr, intToStr, data_nl, gid_label_split, gidLabel, List.append_assoc]
  rw [hshape]
  apply reSearch_hit _ _ _ (by decide)
  exact matchNat_landing g _ (fun c hc => by
    simp at hc
    rw [← hc]
    decide)

theorem item_json_located (g p : Nat) (script cat name : Str)
    (hj : subOccurs jsonPathLabel ("Script: ".data ++ script) = false)
    (hcat : cat ∈ ITEM_CATEGORIES)
    (hn : ∀ c ∈ name, c ≠ '\n') :
    reSearch jsonPathLabel matchLine (itemContextStr (g : Int) (p : Int) script cat name) =
      some (cat ++ '_' :: name) := by
  have hshape : itemContextStr (g : Int) (p : Int) script cat name =
      (("GameObjectID: ".data ++ natToDigits g) ++
        '\n' :: ((("PathID: ".data ++ natToDigits p) ++
          '\n' :: (("Script: ".data ++ script) ++ ['\n']))))
      ++ jsonPathLabel ++ (' ' :: (cat ++ '_' :: name)) := by
    simp [itemContextStr, intToStr, data_nl, json_label_split, jsonPathLabel, List.append_assoc]
  rw [hshape]
  have hcat5 : cat = "commonItems".data ∨ cat = "rareItems".data ∨ cat = "legendaryItems".data ∨
      cat = "specialItems".data ∨ cat = "mythicItems".data := by
    simpa [ITEM_CATEGORIES] using hcat
  apply reSearch_located
  · decide
  · have hdl : jsonPathLabel.dropLast = "JsonPath".data := by decide
    rw [hdl]
    have hassoc :
        ((("GameObjectID: ".data ++ natToDigits g) ++
          '\n' :: ((("PathID: ".data ++ natToDigits p) ++
            '\n' :: (("Script: ".data ++ script) ++ ['\n'])))) ++ "JsonPath".data) =
        (("GameObjectID: ".data ++ natToDigits g) ++
          '\n' :: (("PathID: ".data ++ natToDigits p) ++
            '\n' :: (("Script: ".data ++ script) ++ '\n' :: "JsonPath".data))) := by
      simp
    rw [hassoc]
    rw [subOccurs_append_cons _ _ _ (by decide)]
    rw [subOccurs_append_cons _ _ _ (by decide)]
    rw [subOccurs_append_cons _ _ _ (by decide)]
    rw [no_json_in_gid_line g, no_json_in_pid_line p, hj]
    have : subOccurs jsonPathLabel ("JsonPath".data) = false := by decide
    rw [this]
    rfl
  · have hcatnl : ∀ c ∈ cat, c ≠ '\n' := by
      rcases hcat5 with h | h | h | h | h <;> (subst h; decide)
    have hne : cat ++ '_' :: name ≠ [] := by
      rcases hcat5 with h | h | h | h | h <;> (subst h; simp)
    have hhead : ∀ c, (cat ++ '_' :: name).head? = some c → isPySpace c = false := by
      intro c hc
      rcases hcat5 with h | h | h | h | h <;>
        (subst h; simp at hc; rw [← hc]; decide)
    have hall : ∀ c ∈ cat ++ '_' :: name, c ≠ '\n' := by
      intro c hc
      rcases List.mem_append.mp hc with h' | h'
      · exact hcatnl c h'
      · rcases List.mem_cons.mp h' with h'' | h''
        · subst h''; decide
        · exact hn c h''
    have := matchLine_landing (cat ++ '_' :: name) [] hne hhead hall (Or.inl rfl)
    simpa using this

/-! ### C1: ContextKey round-trip -/

/-- C1 counterexample: the claim demands `decode ∘ encode = id` for
every ContextKey with integer ids, but the decoder's `\d+` patterns
cannot parse the minus sign `str(int)` emits for a negative id, so the
context encoded for `GameObjectID = -1, PathID = -3` fails to decode at
all (the record would be skipped), instead of yielding the identity
back. -/
theorem c1_negative_id_not_decodable :
    decodeApplyCtx (textContextStr (-1) ("p".data) (-3) ("mytext".data)) = none := by
  decide

/-- C1 (amended): for every ContextKey whose ids are non-negative, whose
script name is non-empty, single-line and does not start with
whitespace, whose owner path does not contain the literals `PathID:` or
`Script:`, and (for the sub-path form) whose script does not contain
`JsonPath:` and whose item name is single-line, the labelled-line
context produced by extraction decodes back to exactly the encoded
PathID, Script and GameObjectID — both without a sub-path
(TextProcessor's context) and with one (ItemControllerProcessor's
context), where additionally the JsonPath sub-path decodes back to
`category_name`. -/
theorem c1_context_roundtrip (gid pid : Nat) (path script cat name : Str)
    (hs1 : script ≠ [])
    (hs2 : ∀ c, script.head? = some c → isPySpace c = false)
    (hs3 : ∀ c ∈ script, c ≠ '\n')
    (hp1 : subOccurs pathIDLabel ("GameObjectPath: ".data ++ path) = false)
    (hp2 : subOccurs scriptLabel ("GameObjectPath: ".data ++ path) = false)
    (hj : subOccurs jsonPathLabel ("Script: ".data ++ script) = false)
    (hcat : cat ∈ ITEM_CATEGORIES)
    (hn : ∀ c ∈ name, c ≠ '\n') :
    decodeApplyCtx (textContextStr (gid : Int) path (pid : Int) script) = some (pid, script, gid) ∧
    decodeApplyCtx (itemContextStr (gid : Int) (pid : Int) script cat name) = some (pid, script, gid) ∧
    reSearch jsonPathLabel matchLine (itemContextStr (gid : Int) (pid : Int) script cat name) =
      some (cat ++ '_' :: name) := by
  refine ⟨?_, ?_, ?_⟩
  · unfold decodeApplyCtx
    rw [text_pid_located gid pid path script hp1,
        text_script_located gid pid path script hp2 hs1 hs2 hs3,
        text_gid_located gid pid path script]
  · unfold decodeApplyCtx
    rw [item_pid_located gid pid script cat name,
        item_script_located gid pid script cat name hs1 hs2 hs3,
        item_gid_located gid pid script cat name]
  · exact item_json_located gid pid script cat name hj hcat hn

/-- C1 witness: the amended round-trip at a concrete key
(`GameObjectID 1`, `PathID 7`, script `TextMeshProUGUI`, path
`Canvas/Title`, category `commonItems`, item name `sword`). -/
theorem c1_context_roundtrip_witness :
    decodeApplyCtx (textContextStr ((1 : Nat) : Int) ("Canvas/Title".data) ((7 : Nat) : Int)
        ("TextMeshProUGUI".data)) = some (7, "TextMeshProUGUI".data, 1) ∧
    decodeApplyCtx (itemContextStr ((1 : Nat) : Int) ((7 : Nat) : Int) ("TextMeshProUGUI".data)
        ("commonItems".data) ("sword".data)) = some (7, "TextMeshProUGUI".data, 1) ∧
    reSearch jsonPathLabel matchLine (itemContextStr ((1 : Nat) : Int) ((7 : Nat) : Int)
        ("TextMeshProUGUI".data) ("commonItems".data) ("sword".data)) =
      some ("commonItems".data ++ '_' :: "sword".data) := by
  exact c1_context_roundtrip 1 7 ("Canvas/Title".data) ("TextMeshProUGUI".data)
    ("commonItems".data) ("sword".data)
    (by decide)
    (by intro c hc; simp at hc; rw [← hc]; decide)
    (by decide)
    (by decide)
    (by decide)
    (by decide)
    (by decide)
    (by decide)

/-! ### C2: dispatch priority of the processor registry -/

/-- C2 counterexample: the claim says every script name containing
"dropdown" (case-insensitively) resolves to DropdownProcessor, but
`ItemControllerProcessor` is registered first, so a name containing both
"itemcontroller" and "dropdown" resolves to the item processor. -/
theorem c2_dropdown_not_always_dropdown :
    canHandle .dropdown ("ItemControllerDropdown".data) = true ∧
    getProcessorForScript ("ItemControllerDropdown".data) = some .itemController := by
  decide

/-- C2 (amended): `get_processor_for_script` is the first-match linear
scan over the fixed order [ItemController, Dropdown, Text] — the
returned processor is the first whose predicate holds and later
predicates cannot override it; consequently a name containing "dropdown"
(case-insensitive) resolves to DropdownProcessor whenever it does not
also contain "itemcontroller", and in every case such a name never
resolves to the generic TextProcessor and never to no processor. -/
theorem c2_dispatch_priority (s : Str) :
    (getProcessorForScript s =
      if canHandle .itemController s then some .itemController
      else if canHandle .dropdown s then some .dropdown
      else if canHandle .text s then some .text
      else none) ∧
    (canHandle .dropdown s = true → canHandle .itemController s = false →
      getProcessorForScript s = some .dropdown) ∧
    (canHandle .dropdown s = true →
      getProcessorForScript s ≠ some .text ∧ getProcessorForScript s ≠ none) := by
  have hmain : getProcessorForScript s =
      if canHandle .itemController s then some .itemController
      else if canHandle .dropdown s then some .dropdown
      else if canHandle .text s then some .text
      else none := by
    simp [getProcessorForScript, PROCESSOR_CLASSES, findProcessor]
  refine ⟨hmain, ?_, ?_⟩
  · intro h1 h2
    rw [hmain, h2, h1]
    simp
  · intro h1
    rw [hmain]
    cases hic : canHandle .itemController s <;> simp [h1]

/-- C2 witness: a name containing both "dropdown" and "text" resolves to
the dropdown processor, not the generic text one. -/
theorem c2_dispatch_priority_witness :
    canHandle .dropdown ("MyDropdownText".data) = true ∧
    canHandle .itemController ("MyDropdownText".data) = false ∧
    getProcessorForScript ("MyDropdownText".data) = some .dropdown ∧
    getProcessorForScript ("MyDropdownText".data) ≠ some .text := by
  refine ⟨by decide, by decide, ?_, ?_⟩
  · exact (c2_dispatch_priority ("MyDropdownText".data)).2.1 (by decide) (by decide)
  · exact ((c2_dispatch_priority ("MyDropdownText".data)).2.2 (by decide)).1

/-! ### C3: dropdown reapplication is content-keyed -/

theorem lookupLast_go {κ β : Type} [DecidableEq κ] (m : List (κ × β)) (k : κ) (a : Option β) :
    m.foldl (fun acc p => if p.1 = k then some p.2 else acc) a =
      match lookupLast m k with
      | some v => some v
      | none => a := by
  induction m generalizing a with
  | nil => simp [lookupLast]
  | cons p m' ih =>
    have h1 : lookupLast (p :: m') k =
        m'.foldl (fun acc q => if q.1 = k then some q.2 else acc)
          (if p.1 = k then some p.2 else none) := rfl
    have h2 : (p :: m').foldl (fun acc q => if q.1 = k then some q.2 else acc) a =
        m'.foldl (fun acc q => if q.1 = k then some q.2 else acc)
          (if p.1 = k then some p.2 else a) := rfl
    rw [h1, h2, ih, ih]
    by_cases hpk : p.1 = k <;> cases hl : lookupLast m' k <;> simp [hpk]

theorem lookupLast_cons {κ β : Type} [DecidableEq κ] (p : κ × β) (m : List (κ × β)) (k : κ) :
    lookupLast (p :: m) k =
      match lookupLast m k with
      | some v => some v
      | none => if p.1 = k then some p.2 else none := by
  show m.foldl _ (if p.1 = k then some p.2 else none) = _
  rw [lookupLast_go]

theorem lookupLast_not_mem {κ β : Type} [DecidableEq κ] (m : List (κ × β)) (k : κ)
    (h : k ∉ m.map Prod.fst) : lookupLast m k = none := by
  induction m with
  | nil => rfl
  | cons p m' ih =>
    rw [lookupLast_cons]
    have h1 : k ∉ m'.map Prod.fst := fun hc => h (by simp [hc])
    have h2 : p.1 ≠ k := fun hc => h (by simp [hc])
    rw [ih h1]
    simp [h2]

theorem lookupLast_pairs_of_nodup (g : List PEntry)
    (hd : (g.map (fun e => e.original)).Nodup) :
    ∀ e ∈ g, lookupLast (g.map (fun e => (e.original, e.translation))) e.original =
      some e.translation := by
  induction g with
  | nil => intro e he; simp at he
  | cons e' g' ih =>
    intro e he
    simp only [List.map_cons, List.nodup_cons] at hd
    rw [List.map_cons, lookupLast_cons]
    rcases List.mem_cons.mp he with h | h
    · subst h
      have : e.original ∉ g'.map (fun e => e.original) := hd.1
      have hnone : lookupLast (g'.map (fun e => (e.original, e.translation))) e.original = none := by
        apply lookupLast_not_mem
        simpa [Function.comp] using this
      rw [hnone]
      simp
    · rw [ih hd.2 e h]

theorem dropdownPatch_map (m : List (Str × Str)) (opts : List DOption) :
    (dropdownPatch m opts).1 = opts.map (dropdownPatchSpec m) := by
  induction opts with
  | nil => rfl
  | cons o rest ih =>
    simp only [dropdownPatch, List.map_cons]
    cases ht : o.m_Text with
    | none => simp [dropdownPatchSpec, ht, ih]
    | some s =>
      cases hl : lookupLast m s with
      | none => simp [dropdownPatchSpec, ht, hl, ih]
      | some t => simp [dropdownPatchSpec, ht, hl, ih]

/-- C3: DropdownProcessor.apply is content-keyed.  For every option list
and every non-empty group of records all carrying non-empty translations
(with pairwise-distinct originals, so "that record's translation" is
well defined): the option at any position whose current text equals some
record's original becomes that record's translation — independent of the
position, so reordering or insertion between extraction and application
still translates the right options; an option matching no record is
unchanged; and two options (at any two positions) with identical text
receive identical results. -/
theorem c3_dropdown_content_keyed (opts : List DOption) (g : List PEntry)
    (hg : g ≠ [])
    (ht : ∀ e ∈ g, e.translation ≠ [])
    (hd : (g.map (fun e => e.original)).Nodup) :
    (dropdownApply opts g).1.length = opts.length ∧
    (∀ (i : Nat) (o : DOption), opts[i]? = some o →
      (∀ e ∈ g, o.m_Text = some e.original →
        ((dropdownApply opts g).1)[i]? = some { m_Text := some e.translation }) ∧
      ((∀ e ∈ g, o.m_Text ≠ some e.original) →
        ((dropdownApply opts g).1)[i]? = some o)) ∧
    (∀ (i j : Nat) (oi oj : DOption), opts[i]? = some oi → opts[j]? = some oj →
      oi.m_Text = oj.m_Text →
      ((dropdownApply opts g).1)[i]? = ((dropdownApply opts g).1)[j]?) := by
  have hne : g.isEmpty = false := by
    cases g with
    | nil => exact absurd rfl hg
    | cons a l => rfl
  have hfil : g.filter (fun e => !e.translation.isEmpty) = g := by
    apply List.filter_eq_self.mpr
    intro e he
    have := ht e he
    simp [List.isEmpty_iff, this]
  have hmap : dropdownMap g = g.map (fun e => (e.original, e.translation)) := by
    rw [dropdownMap, hfil]
  have hmne : (dropdownMap g).isEmpty = false := by
    rw [hmap]
    cases g with
    | nil => exact absurd rfl hg
    | cons a l => rfl
  have happly : dropdownApply opts g = dropdownPatch (dropdownMap g) opts := by
    rw [dropdownApply]
    simp only [hne, Bool.false_eq_true, if_false, hmne]
  have hres : (dropdownApply opts g).1 = opts.map (dropdownPatchSpec (dropdownMap g)) := by
    rw [happly, dropdownPatch_map]
  refine ⟨by rw [hres]; simp, ?_, ?_⟩
  · intro i o hio
    constructor
    · intro e he hmt
      rw [hres, List.getElem?_map, hio]
      rw [Option.map_some']
      congr 1
      simp only [dropdownPatchSpec, hmt, hmap, lookupLast_pairs_of_nodup g hd e he]
    · intro hno
      rw [hres, List.getElem?_map, hio]
      rw [Option.map_some']
      congr 1
      cases hmt : o.m_Text with
      | none => simp [dropdownPatchSpec, hmt]
      | some s =>
        have hs : s ∉ g.map (fun e => e.original) := by
          intro hc
          rcases List.mem_map.mp hc with ⟨e, he, horig⟩
          exact hno e he (by rw [hmt, horig])
        have hnone : lookupLast (dropdownMap g) s = none := by
          rw [hmap]
          apply lookupLast_not_mem
          simpa [Function.comp] using hs
        simp only [dropdownPatchSpec, hmt, hnone]
  · intro i j oi oj hi hj heq
    have hoi : oi = oj := by cases oi; cases oj; simpa using heq
    rw [hres, List.getElem?_map, List.getElem?_map, hi, hj, hoi]

/-- C3 witness: options `["A","B"]` translated to `["A2","B2"]`, live
list reordered to `["B","A"]` before apply — each option still receives
its own translation, by content. -/
theorem c3_dropdown_content_keyed_witness :
    ((dropdownApply [⟨some "B".data⟩, ⟨some "A".data⟩]
        [{ key := "k1".data, original := "A".data, translation := "A2".data, stage := 0, context := "c".data },
         { key := "k2".data, original := "B".data, translation := "B2".data, stage := 0, context := "c".data }]).1)[0]? =
      some ⟨some "B2".data⟩ ∧
    ((dropdownApply [⟨some "B".data⟩, ⟨some "A".data⟩]
        [{ key := "k1".data, original := "A".data, translation := "A2".data, stage := 0, context := "c".data },
         { key := "k2".data, original := "B".data, translation := "B2".data, stage := 0, context := "c".data }]).1)[1]? =
      some ⟨some "A2".data⟩ := by
  constructor
  · exact ((c3_dropdown_content_keyed [⟨some "B".data⟩, ⟨some "A".data⟩]
      [{ key := "k1".data, original := "A".data, translation := "A2".data, stage := 0, context := "c".data },
       { key := "k2".data, original := "B".data, translation := "B2".data, stage := 0, context := "c".data }]
      (by decide) (by decide) (by decide)).2.1 0 ⟨some "B".data⟩ (by decide)).1
      { key := "k2".data, original := "B".data, translation := "B2".data, stage := 0, context := "c".data }
      (by decide) (by decide)
  · exact ((c3_dropdown_content_keyed [⟨some "B".data⟩, ⟨some "A".data⟩]
      [{ key := "k1".data, original := "A".data, translation := "A2".data, stage := 0, context := "c".data },
       { key := "k2".data, original := "B".data, translation := "B2".data, stage := 0, context := "c".data }]
      (by decide) (by decide) (by decide)).2.1 1 ⟨some "A".data⟩ (by decide)).1
      { key := "k1".data, original := "A".data, translation := "A2".data, stage := 0, context := "c".data }
      (by decide) (by decide)

/-! ### C10: TextProcessor.apply consumes only the first record -/

/-- C10: TextProcessor.apply uses `translations[0]` only — for any group
its result is that of the singleton group of its first record, so every
later record is ignored; and when the first record's translation is
empty or missing, apply returns False and leaves the tree untouched even
if a later record carries a non-empty translation. -/
theorem c10_text_apply_first_record_only (d : TextData) (r : PEntry) (rest : List PEntry) :
    textApply d (r :: rest) = textApply d [r] ∧
    (r.translation = [] → textApply d (r :: rest) = (d, false)) := by
  constructor
  · rfl
  · intro h
    have : r.translation.isEmpty = true := by rw [h]; rfl
    simp [textApply, this]

/-- C10 witness: a group whose first record is untranslated and whose
second carries a non-empty translation still applies nothing. -/
theorem c10_text_apply_first_record_only_witness :
    ({ key := "k2".data, original := "o".data, translation := "T".data, stage := 0,
       context := "c".data } : PEntry).translation ≠ [] ∧
    textApply ⟨some "Hello".data, none⟩
      [{ key := "k1".data, original := "o".data, translation := [], stage := 0, context := "c".data },
       { key := "k2".data, original := "o".data, translation := "T".data, stage := 0, context := "c".data }] =
      (⟨some "Hello".data, none⟩, false) := by
  refine ⟨by decide, ?_⟩
  exact (c10_text_apply_first_record_only ⟨some "Hello".data, none⟩
    { key := "k1".data, original := "o".data, translation := [], stage := 0, context := "c".data }
    [{ key := "k2".data, original := "o".data, translation := "T".data, stage := 0, context := "c".data }]).2
    rfl

/-! ### C6: idempotent extract/apply round trip for text objects -/

/-- C6: for a text object with a populated field value `v`, extraction
yields exactly the one entry carrying `original = v` and the encoded
context; applying a group containing that entry with a non-empty
translation `t` returns True and sets the populated field to `t`; and
re-extracting the mutated object yields exactly one entry whose
`original` is `t` (same key construction, same context). -/
theorem c6_text_extract_apply_reextract (hash : Str → Str) (gid pid : Int) (path script : Str)
    (d : TextData) (v t : Str) (hv : textFieldValue d = some v) (ht : t ≠ []) :
    textExtract hash gid path pid script d = [textEntryFor hash gid path pid script v] ∧
    (textApply d [{ textEntryFor hash gid path pid script v with translation := t }]).2 = true ∧
    textFieldValue
      (textApply d [{ textEntryFor hash gid path pid script v with translation := t }]).1 = some t ∧
    textExtract hash gid path pid script
      (textApply d [{ textEntryFor hash gid path pid script v with translation := t }]).1 =
      [textEntryFor hash gid path pid script t] := by
  have htE : t.isEmpty = false := by
    cases t with
    | nil => exact absurd rfl ht
    | cons a l => rfl
  have hex : textExtract hash gid path pid script d = [textEntryFor hash gid path pid script v] := by
    simp [textExtract, hv]
  cases h1 : optTruthy d.m_text with
  | true =>
    have happ : textApply d [{ textEntryFor hash gid path pid script v with translation := t }] =
        ({ d with m_text := some t }, true) := by
      simp [textApply, textEntryFor, htE, h1]
    have hfv : textFieldValue ({ d with m_text := some t } : TextData) = some t := by
      simp [textFieldValue, optTruthy, htE]
    refine ⟨hex, by rw [happ], by rw [happ]; exact hfv, ?_⟩
    rw [happ]
    simp [textExtract, hfv]
  | false =>
    cases h2 : optTruthy d.m_Text with
    | true =>
      have happ : textApply d [{ textEntryFor hash gid path pid script v with translation := t }] =
          ({ d with m_Text := some t }, true) := by
        simp [textApply, textEntryFor, htE, h1, h2]
      have hfv : textFieldValue ({ d with m_Text := some t } : TextData) = some t := by
        rw [textFieldValue]
        have hT : optTruthy (some t) = true := by simp [optTruthy, htE]
        simp only [h1, Bool.false_eq_true, if_false, hT, if_true]
      refine ⟨hex, by rw [happ], by rw [happ]; exact hfv, ?_⟩
      rw [happ]
      simp [textExtract, hfv]
    | false =>
      rw [textFieldValue, h1, h2] at hv
      simp at hv

/-- C6 witness: the spec's end-to-end scenario — field `"Hello"`,
path id 7, translated to `"Bonjour"` (hash function instantiated with
the identity, as every statement is hash-parametric). -/
theorem c6_text_extract_apply_reextract_witness :
    textExtract id 1 ("Canvas/Title".data) 7 ("SomeText".data) ⟨some "Hello".data, none⟩ =
      [textEntryFor id 1 ("Canvas/Title".data) 7 ("SomeText".data) ("Hello".data)] ∧
    (textApply ⟨some "Hello".data, none⟩
      [{ textEntryFor id 1 ("Canvas/Title".data) 7 ("SomeText".data) ("Hello".data) with
         translation := "Bonjour".data }]).2 = true ∧
    textFieldValue
      (textApply ⟨some "Hello".data, none⟩
        [{ textEntryFor id 1 ("Canvas/Title".data) 7 ("SomeText".data) ("Hello".data) with
           translation := "Bonjour".data }]).1 = some ("Bonjour".data) ∧
    textExtract id 1 ("Canvas/Title".data) 7 ("SomeText".data)
      (textApply ⟨some "Hello".data, none⟩
        [{ textEntryFor id 1 ("Canvas/Title".data) 7 ("SomeText".data) ("Hello".data) with
           translation := "Bonjour".data }]).1 =
      [textEntryFor id 1 ("Canvas/Title".data) 7 ("SomeText".data) ("Bonjour".data)] := by
  exact c6_text_extract_apply_reextract id 1 7 ("Canvas/Title".data) ("SomeText".data)
    ⟨some "Hello".data, none⟩ ("Hello".data) ("Bonjour".data) (by decide) (by decide)

/-! ### C9: apply persists iff it reports a change -/

theorem itemPatchItems_unmodified (m : List (Str × Str)) (cat : Str) :
    ∀ items, (itemPatchItems m cat items).2 = false → (itemPatchItems m cat items).1 = items := by
  intro items
  induction items with
  | nil => intro _; rfl
  | cons it rest ih =>
    intro h
    by_cases hskip : (it.name.isEmpty || it.description.isEmpty) = true
    · simp only [itemPatchItems, hskip, if_true] at h ⊢
      rw [ih h]
    · have hskip' : (it.name.isEmpty || it.description.isEmpty) = false := by
        simpa using hskip
      cases hl : lookupLast m (cat ++ '_' :: it.name) with
      | some tr =>
        simp [itemPatchItems, hskip', hl] at h
      | none =>
        simp only [itemPatchItems, hskip', Bool.false_eq_true, if_false, hl] at h ⊢
        rw [ih h]

theorem dropdownPatch_unmodified (m : List (Str × Str)) :
    ∀ opts, (dropdownPatch m opts).2 = false → (dropdownPatch m opts).1 = opts := by
  intro opts
  induction opts with
  | nil => intro _; rfl
  | cons o rest ih =>
    intro h
    cases ht : o.m_Text with
    | none =>
      simp only [dropdownPatch, ht] at h ⊢
      rw [ih h]
    | some s =>
      cases hl : lookupLast m s with
      | some tr =>
        simp [dropdownPatch, ht, hl] at h
      | none =>
        simp only [dropdownPatch, ht, hl] at h ⊢
        rw [ih h]

/-- C9: each built-in processor's apply persists the tree
(`save_typetree`) exactly when it returns True; whenever it returns
False — empty group, no usable translation, or nothing matched — no save
happens and the tree it would have saved is the unchanged input. -/
theorem c9_apply_saves_iff_modified (dT : TextData) (gT : List PEntry) (dI : ItemData)
    (gI : List PEntry) (dD : List DOption) (gD : List PEntry) :
    ((textSaved dT gT).isSome ↔ (textApply dT gT).2 = true) ∧
    ((textApply dT gT).2 = false → (textApply dT gT).1 = dT) ∧
    ((itemSaved dI gI).isSome ↔ ∃ d', itemApply dI gI = some (d', true)) ∧
    (∀ d', itemApply dI gI = some (d', false) → d' = dI) ∧
    ((dropdownSaved dD gD).isSome ↔ (dropdownApply dD gD).2 = true) ∧
    ((dropdownApply dD gD).2 = false → (dropdownApply dD gD).1 = dD) := by
  refine ⟨?_, ?_, ?_, ?_, ?_, ?_⟩
  · rw [textSaved]
    cases h : (textApply dT gT).2 <;> simp [h]
  · intro h
    cases gT with
    | nil => rfl
    | cons r rest =>
      by_cases hr : r.translation.isEmpty = true
      · simp [textApply, hr]
      · simp only [textApply, hr, Bool.false_eq_true, if_false] at h ⊢
        by_cases h1 : optTruthy dT.m_text = true
        · rw [h1] at h; simp at h
        · simp only [h1, Bool.false_eq_true, if_false] at h ⊢
          by_cases h2 : optTruthy dT.m_Text = true
          · rw [h2] at h; simp at h
          · simp [h1, h2] at h ⊢
  · rw [itemSaved]
    cases hA : itemApply dI gI with
    | none => simp
    | some p =>
      cases p with
      | mk d' b =>
        cases b <;> simp
  · intro d' hA
    rw [itemApply] at hA
    split at hA
    · simp only [Option.some_inj] at hA
      exact (congrArg Prod.fst hA).symm
    · split at hA
      · exact absurd hA (by simp)
      · rename_i m hM
        split at hA
        · simp only [Option.some_inj] at hA
          exact (congrArg Prod.fst hA).symm
        · simp only [Option.some_inj, Prod.mk.injEq] at hA
          obtain ⟨hdata, hflags⟩ := hA
          simp only [Bool.or_eq_false_iff] at hflags
          rw [← hdata]
          have e1 := itemPatchItems_unmodified m ("commonItems".data) dI.commonItems
            hflags.1.1.1.1
          have e2 := itemPatchItems_unmodified m ("rareItems".data) dI.rareItems
            hflags.1.1.1.2
          have e3 := itemPatchItems_unmodified m ("legendaryItems".data) dI.legendaryItems
            hflags.1.1.2
          have e4 := itemPatchItems_unmodified m ("specialItems".data) dI.specialItems
            hflags.1.2
          have e5 := itemPatchItems_unmodified m ("mythicItems".data) dI.mythicItems
            hflags.2
          rw [e1, e2, e3, e4, e5]
  · rw [dropdownSaved]
    cases h : (dropdownApply dD gD).2 <;> simp [h]
  · intro h
    rw [dropdownApply] at h ⊢
    by_cases hg : gD.isEmpty = true
    · simp [hg]
    · simp only [hg, Bool.false_eq_true, if_false] at h ⊢
      by_cases hme : (dropdownMap gD).isEmpty = true
      · simp [hme]
      · simp only [hme, Bool.false_eq_true, if_false] at h ⊢
        exact dropdownPatch_unmodified _ _ h

/-- C9 witness: with an empty record group each processor reports False
and the would-be tree equals the input unchanged (and the item apply's
unchanged-tree fact instantiated at its own result). -/
theorem c9_apply_saves_iff_modified_witness :
    (textApply ⟨some "Hello".data, none⟩ []).2 = false ∧
    (textApply ⟨some "Hello".data, none⟩ []).1 = ⟨some "Hello".data, none⟩ ∧
    itemApply ⟨[⟨"n".data, "d".data⟩], [], [], [], []⟩ [] =
      some (⟨[⟨"n".data, "d".data⟩], [], [], [], []⟩, false) ∧
    (⟨[⟨"n".data, "d".data⟩], [], [], [], []⟩ : ItemData) =
      ⟨[⟨"n".data, "d".data⟩], [], [], [], []⟩ ∧
    (dropdownApply [⟨some "A".data⟩] []).2 = false ∧
    (dropdownApply [⟨some "A".data⟩] []).1 = [⟨some "A".data⟩] := by
  refine ⟨by decide, ?_, by decide, ?_, by decide, ?_⟩
  · exact (c9_apply_saves_iff_modified ⟨some "Hello".data, none⟩ []
      ⟨[⟨"n".data, "d".data⟩], [], [], [], []⟩ [] [⟨some "A".data⟩] []).2.1 (by decide)
  · exact (c9_apply_saves_iff_modified ⟨some "Hello".data, none⟩ []
      ⟨[⟨"n".data, "d".data⟩], [], [], [], []⟩ [] [⟨some "A".data⟩] []).2.2.2.1
      ⟨[⟨"n".data, "d".data⟩], [], [], [], []⟩ (by decide)
  · exact (c9_apply_saves_iff_modified ⟨some "Hello".data, none⟩ []
      ⟨[⟨"n".data, "d".data⟩], [], [], [], []⟩ [] [⟨some "A".data⟩] []).2.2.2.2.2 (by decide)

/-! ### C5: ItemController extraction and application -/

theorem itemExtractItems_spec (hash : Str → Str) (gid pid : Int) (script cat : Str) :
    ∀ items, itemExtractItems hash gid pid script cat items =
      (items.filter (fun it => !(it.name.isEmpty || it.description.isEmpty))).map
        (itemEntryFor hash gid pid script cat) := by
  intro items
  induction items with
  | nil => rfl
  | cons it rest ih =>
    by_cases hskip : (it.name.isEmpty || it.description.isEmpty) = true
    · simp only [itemExtractItems, hskip, if_true, List.filter_cons, Bool.not_true,
        Bool.false_eq_true, if_false]
      exact ih
    · have hskip' : (it.name.isEmpty || it.description.isEmpty) = false := by simpa using hskip
      simp only [itemExtractItems, hskip', Bool.false_eq_true, if_false, List.filter_cons,
        Bool.not_false, if_true, List.map_cons]
      rw [ih]

theorem itemExtractCats_spec (hash : Str → Str) (gid pid : Int) (script : Str) (d : ItemData) :
    ∀ cs, itemExtractCats hash gid pid script d cs =
      (cs.map (fun c => itemExtractItems hash gid pid script c (getCategory d c))).flatten := by
  intro cs
  induction cs with
  | nil => rfl
  | cons c cs' ih =>
    simp only [itemExtractCats, List.map_cons, List.flatten_cons]
    rw [ih]

theorem itemPatchItems_spec (m : List (Str × Str)) (cat : Str) :
    ∀ items, itemPatchItems m cat items =
      (items.map (itemPatchSpec m cat), items.any (itemHitSpec m cat)) := by
  intro items
  induction items with
  | nil => rfl
  | cons it rest ih =>
    by_cases hskip : (it.name.isEmpty || it.description.isEmpty) = true
    · have hhit : itemHitSpec m cat it = false := by
        rw [itemHitSpec]
        rcases Bool.or_eq_true_iff.mp hskip with h | h
        · rw [h]; rfl
        · rw [h]; simp
      simp only [itemPatchItems, hskip, if_true, ih, List.map_cons, List.any_cons, hhit,
        Bool.false_or, itemPatchSpec]
    · have hskip' : (it.name.isEmpty || it.description.isEmpty) = false := by simpa using hskip
      cases hl : lookupLast m (cat ++ '_' :: it.name) with
      | some t =>
        have hhit : itemHitSpec m cat it = true := by
          rw [itemHitSpec, hl]
          rcases Bool.or_eq_false_iff.mp hskip' with ⟨h1, h2⟩
          simp [h1, h2]
        simp only [itemPatchItems, hskip', Bool.false_eq_true, if_false, hl, ih, List.map_cons,
          List.any_cons, hhit, Bool.true_or, itemPatchSpec]
      | none =>
        have hhit : itemHitSpec m cat it = false := by
          rw [itemHitSpec, hl]
          simp
        simp only [itemPatchItems, hskip', Bool.false_eq_true, if_false, hl, ih, List.map_cons,
          List.any_cons, hhit, Bool.false_or, itemPatchSpec]

theorem itemPatchSpec_nil (cat : Str) (it : Item) :
    itemPatchSpec ([] : List (Str × Str)) cat it = it := by
  rw [itemPatchSpec]
  split
  · rfl
  · rfl

theorem map_itemPatchSpec_nil (cat : Str) (l : List Item) : l.map (itemPatchSpec [] cat) = l := by
  induction l with
  | nil => rfl
  | cons a t ih => simp [itemPatchSpec_nil, ih]

theorem itemApplySpecFn_nil (d : ItemData) : itemApplySpecFn [] d = d := by
  cases d
  simp [itemApplySpecFn, map_itemPatchSpec_nil]

theorem itemHitSpec_nil (cat : Str) (it : Item) :
    itemHitSpec ([] : List (Str × Str)) cat it = false := by
  rw [itemHitSpec]
  simp [lookupLast]

theorem itemModifiedSpec_nil (d : ItemData) : itemModifiedSpec [] d = false := by
  simp [itemModifiedSpec, itemHitSpec_nil]

theorem getCategory_common (d : ItemData) : getCategory d ("commonItems".data) = d.commonItems := rfl

theorem getCategory_rare (d : ItemData) : getCategory d ("rareItems".data) = d.rareItems := rfl

theorem getCategory_legendary (d : ItemData) :
    getCategory d ("legendaryItems".data) = d.legendaryItems := rfl

theorem getCategory_special (d : ItemData) :
    getCategory d ("specialItems".data) = d.specialItems := rfl

theorem getCategory_mythic (d : ItemData) : getCategory d ("mythicItems".data) = d.mythicItems := rfl

/-- C5 counterexample: the claim says apply patches *exactly* the items
whose `category_name` key appears among the translated records, but an
item whose live `description` is empty is skipped by the guard even
though its key is present — here `commonItems_x` is in the map, yet the
item is left unpatched and apply returns False. -/
theorem c5_key_present_but_empty_description_not_patched :
    buildItemMap
      [{ key := "k".data, original := "d".data, translation := "t".data, stage := 0,
         context := itemContextStr 1 2 ("myitemcontroller".data) ("commonItems".data) ("x".data) }] =
      some [("commonItems_x".data, "t".data)] ∧
    itemApply ⟨[⟨"x".data, []⟩], [], [], [], []⟩
      [{ key := "k".data, original := "d".data, translation := "t".data, stage := 0,
         context := itemContextStr 1 2 ("myitemcontroller".data) ("commonItems".data) ("x".data) }] =
      some (⟨[⟨"x".data, []⟩], [], [], [], []⟩, false) := by
  constructor
  · decide
  · decide

/-- C5 (amended): extraction emits exactly one entry per item with
non-empty name and description, iterating the fixed ordered category
list with sub-path `category_name`; and (whenever the record group's
JsonPath map builds, i.e. every translated record's context has a
JsonPath) apply rewrites the description of exactly those items that
have a non-empty name *and a non-empty description* and whose
`category_name` key is bound in the map, leaving every other item
untouched, returning True exactly when some item was patched. -/
theorem c5_item_extract_apply (hash : Str → Str) (gid pid : Int) (script : Str) (d : ItemData)
    (g : List PEntry) (m : List (Str × Str)) (hm : buildItemMap g = some m) :
    itemExtract hash gid pid script d =
      (ITEM_CATEGORIES.map (fun c =>
        ((getCategory d c).filter (fun it => !(it.name.isEmpty || it.description.isEmpty))).map
          (itemEntryFor hash gid pid script c))).flatten ∧
    itemApply d g = some (itemApplySpecFn m d, itemModifiedSpec m d) := by
  constructor
  · rw [itemExtract, itemExtractCats_spec]
    congr 1
    exact List.map_congr_left
      (fun c _ => itemExtractItems_spec hash gid pid script c (getCategory d c))
  · rw [itemApply]
    by_cases hg : g.isEmpty = true
    · have hgnil : g = [] := List.isEmpty_iff.mp hg
      subst hgnil
      have hmnil : m = [] := by
        simp only [buildItemMap, Option.some_inj] at hm
        exact hm.symm
      subst hmnil
      simp [itemApplySpecFn_nil, itemModifiedSpec_nil]
    · have hg' : g.isEmpty = false := by simpa using hg
      simp only [hg', Bool.false_eq_true, if_false, hm]
      by_cases hme : m.isEmpty = true
      · have hmnil : m = [] := List.isEmpty_iff.mp hme
        subst hmnil
        simp [itemApplySpecFn_nil, itemModifiedSpec_nil]
      · have hme' : m.isEmpty = false := by simpa using hme
        simp only [hme', Bool.false_eq_true, if_false, Option.some_inj]
        simp only [itemPatchItems_spec]
        rw [itemApplySpecFn, itemModifiedSpec]
        rw [Prod.mk.injEq]
        constructor
        · rfl
        · simp only [ITEM_CATEGORIES, List.any_cons, List.any_nil, Bool.or_assoc, Bool.or_false]
          rfl

/-- C5 witness: one translated record for `commonItems_x` patches the
matching item's description (and only it), with the modified flag True. -/
theorem c5_item_extract_apply_witness :
    buildItemMap
      [{ key := "k".data, original := "old".data, translation := "new".data, stage := 0,
         context := itemContextStr 1 2 ("myitemcontroller".data) ("commonItems".data) ("x".data) }] =
      some [("commonItems_x".data, "new".data)] ∧
    itemApply ⟨[⟨"x".data, "old".data⟩, ⟨"y".data, "keep".data⟩], [], [], [], []⟩
      [{ key := "k".data, original := "old".data, translation := "new".data, stage := 0,
         context := itemContextStr 1 2 ("myitemcontroller".data) ("commonItems".data) ("x".data) }] =
      some (itemApplySpecFn [("commonItems_x".data, "new".data)]
              ⟨[⟨"x".data, "old".data⟩, ⟨"y".data, "keep".data⟩], [], [], [], []⟩,
            itemModifiedSpec [("commonItems_x".data, "new".data)]
              ⟨[⟨"x".data, "old".data⟩, ⟨"y".data, "keep".data⟩], [], [], [], []⟩) ∧
    itemApplySpecFn [("commonItems_x".data, "new".data)]
        ⟨[⟨"x".data, "old".data⟩, ⟨"y".data, "keep".data⟩], [], [], [], []⟩ =
      ⟨[⟨"x".data, "new".data⟩, ⟨"y".data, "keep".data⟩], [], [], [], []⟩ := by
  refine ⟨by decide, ?_, by decide⟩
  exact (c5_item_extract_apply id 1 2 ("myitemcontroller".data)
    ⟨[⟨"x".data, "old".data⟩, ⟨"y".data, "keep".data⟩], [], [], [], []⟩
    [{ key := "k".data, original := "old".data, translation := "new".data, stage := 0,
       context := itemContextStr 1 2 ("myitemcontroller".data) ("commonItems".data) ("x".data) }]
    [("commonItems_x".data, "new".data)] (by decide)).2

/-! ### C4: application-engine record filtering -/

theorem groupAdd_lookup (m : List ((Nat × Str × Nat) × List PEntry)) (k k' : Nat × Str × Nat)
    (e : PEntry) :
    alistLookup (groupAdd m k e) k' =
      if k' = k then some ((alistLookup m k).getD [] ++ [e]) else alistLookup m k' := by
  induction m with
  | nil =>
    by_cases h : k' = k
    · subst h
      simp [groupAdd, alistLookup]
    · have h' : ¬(k = k') := fun hc => h hc.symm
      simp [groupAdd, alistLookup, h, h']
  | cons p m' ih =>
    cases p with
    | mk k₁ l₁ =>
      by_cases h1 : k₁ = k
      · subst h1
        by_cases h2 : k' = k₁
        · subst h2
          simp [groupAdd, alistLookup]
        · have h2' : ¬(k₁ = k') := fun hc => h2 hc.symm
          simp [groupAdd, alistLookup, h2, h2']
      · by_cases h2 : k₁ = k'
        · subst h2
          have h3 : ¬(k₁ = k) := h1
          simp [groupAdd, alistLookup, h1, h3]
        · have h2' : ¬(k₁ = k') := h2
          simp [groupAdd, alistLookup, h1, h2', ih]

theorem entryGroups_fold (k : Nat × Str × Nat) :
    ∀ (es : List PEntry) (m : List ((Nat × Str × Nat) × List PEntry)),
      alistLookup
        (es.foldl (fun m e =>
          match decodeApplyCtx e.context with
          | some k' => groupAdd m k' e
          | none => m) m) k =
      (if (es.filter (fun e => decide (decodeApplyCtx e.context = some k))).isEmpty
       then alistLookup m k
       else some ((alistLookup m k).getD [] ++
         es.filter (fun e => decide (decodeApplyCtx e.context = some k)))) := by
  intro es
  induction es with
  | nil => intro m; simp
  | cons e es' ih =>
    intro m
    cases hd : decodeApplyCtx e.context with
    | none =>
      have hp : decide (decodeApplyCtx e.context = some k) = false := by simp [hd]
      simp only [List.foldl_cons, List.filter_cons, hd, hp, Bool.false_eq_true, if_false]
      exact ih m
    | some k' =>
      by_cases hk : k' = k
      · subst hk
        have hp : decide (decodeApplyCtx e.context = some k') = true := by simp [hd]
        simp only [List.foldl_cons, List.filter_cons, hd, hp, if_true]
        rw [ih (groupAdd m k' e), groupAdd_lookup m k' k' e]
        simp only [if_pos rfl, List.isEmpty_cons, Bool.false_eq_true, if_false]
        by_cases hfe : (es'.filter (fun e => decide (decodeApplyCtx e.context = some k'))).isEmpty = true
        · rw [if_pos hfe]
          rw [List.isEmpty_iff.mp hfe]
          simp
        · rw [if_neg hfe]
          simp [List.append_assoc]
      · have hp : decide (decodeApplyCtx e.context = some k) = false := by
          simp only [hd, decide_eq_false_iff_not]
          intro hc
          exact hk (Option.some_inj.mp hc)
        simp only [List.foldl_cons, List.filter_cons, hd, hp, Bool.false_eq_true, if_false]
        rw [ih (groupAdd m k' e), groupAdd_lookup m k' k e]
        have hkk : ¬(k = k') := fun hc => hk hc.symm
        simp only [hkk, if_false]
        simp [hk]

/-- C4 counterexample: the claim says `core_apply` uses only records
with a non-empty translation, but its prefilter checks only `context` —
a record with an *empty* translation and a decodable context is grouped
under its identity (and is handed to the processor, where it can even
shadow later translated records, cf. C10). -/
theorem c4_empty_translation_still_grouped :
    alistLookup
      (entryGroups [some { key := "k".data, original := "o".data, translation := [], stage := 0,
                           context := textContextStr 1 ("p".data) 2 ("mytext".data) }])
      (2, "mytext".data, 1) =
      some [{ key := "k".data, original := "o".data, translation := [], stage := 0,
              context := textContextStr 1 ("p".data) 2 ("mytext".data) }] ∧
    ({ key := "k".data, original := "o".data, translation := [], stage := 0,
       context := textContextStr 1 ("p".data) 2 ("mytext".data) } : PEntry).translation = [] := by
  constructor
  · decide
  · rfl

/-- C4 (amended): the grouping step of `core_apply` uses exactly the
persisted records that are non-null, have a non-empty context, and whose
context decodes (PathID, Script and GameObjectID all present and
parseable): the group stored under an identity key is precisely the
in-order list of such records decoding to that key — no condition on
the translation is applied; and a record that is null, context-less or
undecodable is skipped at the record level: deleting it changes no
group and never aborts the batch. -/
theorem c4_record_filtering (td : List (Option PEntry)) (k : Nat × Str × Nat)
    (pre post : List (Option PEntry)) (bad : Option PEntry) :
    (alistLookup (entryGroups td) k =
      (if ((translatedEntries td).filter
            (fun e => decide (decodeApplyCtx e.context = some k))).isEmpty
       then none
       else some ((translatedEntries td).filter
         (fun e => decide (decodeApplyCtx e.context = some k))))) ∧
    ((entryUsable bad = none ∨
        ∃ e, entryUsable bad = some e ∧ decodeApplyCtx e.context = none) →
      entryGroups (pre ++ bad :: post) = entryGroups (pre ++ post)) := by
  constructor
  · rw [entryGroups, entryGroups_fold k (translatedEntries td) []]
    rfl
  · intro hbad
    rw [entryGroups, entryGroups]
    rcases hbad with h | ⟨e, he, hdec⟩
    · rw [translatedEntries, translatedEntries, List.filterMap_append, List.filterMap_append]
      simp only [List.filterMap_cons, h]
    · rw [translatedEntries, translatedEntries, List.filterMap_append, List.filterMap_append]
      simp only [List.filterMap_cons, he]
      rw [List.foldl_append, List.foldl_append, List.foldl_cons, hdec]

/-- C4 witness: a concrete run of the grouping characterization — one
decodable record is grouped under its decoded identity, and inserting a
record with an undecodable context (`"garbage"`) between two others
changes no group. -/
theorem c4_record_filtering_witness :
    alistLookup
      (entryGroups [some { key := "k".data, original := "o".data, translation := "t".data,
                           stage := 0,
                           context := textContextStr 1 ("p".data) 2 ("mytext".data) }])
      (2, "mytext".data, 1) =
      some [{ key := "k".data, original := "o".data, translation := "t".data, stage := 0,
              context := textContextStr 1 ("p".data) 2 ("mytext".data) }] ∧
    entryGroups
      ([some { key := "a".data, original := "o".data, translation := "t".data, stage := 0,
               context := textContextStr 1 ("p".data) 2 ("mytext".data) }] ++
        (some { key := "bad".data, original := "o".data, translation := "t".data, stage := 0,
                context := "garbage".data }) ::
        [some { key := "b".data, original := "o".data, translation := "t".data, stage := 0,
                context := textContextStr 3 ("p".data) 4 ("mytext".data) }]) =
    entryGroups
      ([some { key := "a".data, original := "o".data, translation := "t".data, stage := 0,
               context := textContextStr 1 ("p".data) 2 ("mytext".data) }] ++
        [some { key := "b".data, original := "o".data, translation := "t".data, stage := 0,
                context := textContextStr 3 ("p".data) 4 ("mytext".data) }]) := by
  constructor
  · rw [(c4_record_filtering
      [some { key := "k".data, original := "o".data, translation := "t".data, stage := 0,
              context := textContextStr 1 ("p".data) 2 ("mytext".data) }]
      (2, "mytext".data, 1) [] [] none).1]
    decide
  · exact (c4_record_filtering [] (0, [], 0)
      [some { key := "a".data, original := "o".data, translation := "t".data, stage := 0,
              context := textContextStr 1 ("p".data) 2 ("mytext".data) }]
      [some { key := "b".data, original := "o".data, translation := "t".data, stage := 0,
              context := textContextStr 3 ("p".data) 4 ("mytext".data) }]
      (some { key := "bad".data, original := "o".data, translation := "t".data, stage := 0,
              context := "garbage".data })).2
      (Or.inr ⟨{ key := "bad".data, original := "o".data, translation := "t".data, stage := 0,
                 context := "garbage".data }, by decide, by decide⟩)

/-! ### C7: collision reporting -/

theorem alistSet_lookup {κ β : Type} [DecidableEq κ] (m : List (κ × β)) (k k' : κ) (v : β) :
    alistLookup (alistSet m k v) k' = if k = k' then some v else alistLookup m k' := by
  induction m with
  | nil => simp [alistSet, alistLookup]
  | cons p m' ih =>
    cases p with
    | mk k₁ v₁ =>
      by_cases h1 : k₁ = k
      · subst h1
        by_cases h2 : k₁ = k'
        · subst h2
          simp [alistSet, alistLookup]
        · simp [alistSet, alistLookup, h2]
      · by_cases h2 : k₁ = k'
        · subst h2
          have h3 : ¬(k = k₁) := fun hc => h1 hc.symm
          simp [alistSet, alistLookup, h1, h3]
        · simp [alistSet, alistLookup, h1, h2, ih]

theorem dupCtxs_cons (e : PEntry) (es' : List PEntry) (k : Str) :
    dupCtxs (e :: es') k = (if e.key = k then [e.context] else []) ++ dupCtxs es' k := by
  rw [dupCtxs, dupCtxs, List.filter_cons]
  by_cases h : e.key = k <;> simp [h]

theorem dupFold : ∀ (es : List PEntry) (ks : List (Str × Str)) (dup : List (Str × List Str))
    (C : Str → List Str),
    (∀ k, alistLookup ks k = (C k).head?) →
    (∀ k, alistLookup dup k = if 2 ≤ (C k).length then some (C k) else none) →
    (∀ k, alistLookup (es.foldl dupStep (ks, dup)).1 k = (C k ++ dupCtxs es k).head?) ∧
    (∀ k, alistLookup (es.foldl dupStep (ks, dup)).2 k =
      if 2 ≤ (C k ++ dupCtxs es k).length then some (C k ++ dupCtxs es k) else none) := by
  intro es
  induction es with
  | nil =>
    intro ks dup C h1 h2
    constructor
    · intro k; simpa [dupCtxs] using h1 k
    · intro k; simpa [dupCtxs] using h2 k
  | cons e es' ih =>
    intro ks dup C h1 h2
    rw [List.foldl_cons]
    have hCe := h1 e.key
    have hstep : ∃ ks' dup', dupStep (ks, dup) e = (ks', dup') ∧
        (∀ k, alistLookup ks' k = (C k ++ if e.key = k then [e.context] else []).head?) ∧
        (∀ k, alistLookup dup' k =
          if 2 ≤ (C k ++ if e.key = k then [e.context] else []).length
          then some (C k ++ if e.key = k then [e.context] else []) else none) := by
      cases hks : alistLookup ks e.key with
      | some firstCtx =>
        rw [hks] at hCe
        have hCcons : ∃ tl, C e.key = firstCtx :: tl := by
          cases hCk : C e.key with
          | nil => rw [hCk] at hCe; simp at hCe
          | cons a t =>
            rw [hCk] at hCe
            simp only [List.head?_cons, Option.some_inj] at hCe
            exact ⟨t, by rw [hCe]⟩
        obtain ⟨tl, hC⟩ := hCcons
        cases hdup : alistLookup dup e.key with
        | some l =>
          have h2e := h2 e.key
          rw [hdup] at h2e
          have hl : 2 ≤ (C e.key).length ∧ l = C e.key := by
            by_cases h : 2 ≤ (C e.key).length
            · rw [if_pos h] at h2e
              exact ⟨h, Option.some_inj.mp h2e⟩
            · rw [if_neg h] at h2e
              exact absurd h2e (by simp)
          refine ⟨ks, alistSet dup e.key (l ++ [e.context]), by simp [dupStep, hks, hdup], ?_, ?_⟩
          · intro k
            by_cases hek : e.key = k
            · subst hek
              rw [h1 e.key, hC]
              simp
            · rw [h1 k]
              simp [hek]
          · intro k
            by_cases hek : e.key = k
            · subst hek
              rw [alistSet_lookup, if_pos rfl, hl.2]
              have hlen : 2 ≤ (C e.key ++ [e.context]).length := by
                rw [hC]; simp
              rw [if_pos (by simpa using hlen)]
              simp
            · rw [alistSet_lookup, if_neg hek, h2 k]
              simp [hek]
        | none =>
          have h2e := h2 e.key
          rw [hdup] at h2e
          have hnot2 : ¬ 2 ≤ (C e.key).length := by
            by_cases h : 2 ≤ (C e.key).length
            · rw [if_pos h] at h2e
              exact absurd h2e.symm (by simp)
            · exact h
          have htl : tl = [] := by
            rw [hC] at hnot2
            simp only [List.length_cons] at hnot2
            have hlen0 : tl.length = 0 := by omega
            exact List.length_eq_zero.mp hlen0
          subst htl
          refine ⟨ks, alistSet dup e.key [firstCtx, e.context],
            by simp [dupStep, hks, hdup], ?_, ?_⟩
          · intro k
            by_cases hek : e.key = k
            · subst hek
              rw [h1 e.key, hC]
              simp
            · rw [h1 k]
              simp [hek]
          · intro k
            by_cases hek : e.key = k
            · subst hek
              rw [alistSet_lookup, if_pos rfl, hC]
              simp
            · rw [alistSet_lookup, if_neg hek, h2 k]
              simp [hek]
      | none =>
        rw [hks] at hCe
        have hCnil : C e.key = [] := by
          cases hCk : C e.key with
          | nil => rfl
          | cons a t => rw [hCk] at hCe; simp at hCe
        refine ⟨alistSet ks e.key e.context, dup, by simp [dupStep, hks], ?_, ?_⟩
        · intro k
          by_cases hek : e.key = k
          · subst hek
            rw [alistSet_lookup, if_pos rfl, hCnil]
            simp
          · rw [alistSet_lookup, if_neg hek, h1 k]
            simp [hek]
        · intro k
          by_cases hek : e.key = k
          · subst hek
            rw [h2 e.key, hCnil]
            simp
          · rw [h2 k]
            simp [hek]
    obtain ⟨ks', dup', hse, hk1, hk2⟩ := hstep
    rw [hse]
    have hres := ih ks' dup' (fun k => C k ++ if e.key = k then [e.context] else []) hk1 hk2
    constructor
    · intro k
      rw [dupCtxs_cons, ← List.append_assoc]
      exact hres.1 k
    · intro k
      rw [dupCtxs_cons, ← List.append_assoc]
      exact hres.2 k

/-- C7: after the extraction pass, every key shared by two or more
entries is reported with the contexts of *all* of its entries — the
first occurrence and every later one, in order; a key of at most one
entry is not reported; and the dumped output list is the full extraction
result, unchanged, so no colliding entry is dropped. -/
theorem c7_collision_reporting (entries : List PEntry) (k : Str) :
    (extractFinalize entries).1 = entries ∧
    alistLookup (collectDuplicates entries) k =
      (if 2 ≤ (dupCtxs entries k).length then some (dupCtxs entries k) else none) := by
  constructor
  · rfl
  · have h := dupFold entries [] [] (fun _ => []) (fun _ => rfl) (fun _ => by simp [alistLookup])
    have hk := h.2 k
    simpa [collectDuplicates] using hk

/-! ### C8: font-adoption mapping errors are fatal but not rolled back -/

theorem fontPhase_progress (srcEnv : List CFObj) (srcMap tgtMap : List (Int × Nat)) :
    ∀ (done : List (Int × Int)) (env : List CFObj),
      (∀ p ∈ done, (lookupLast srcMap p.1).isSome ∧ (lookupLast tgtMap p.2).isSome) →
      ∀ rest, fontPhase srcEnv srcMap tgtMap (done ++ rest) env =
        fontPhase srcEnv srcMap tgtMap rest
          (done.foldl (applyFontPair srcEnv srcMap tgtMap) env) := by
  intro done
  induction done with
  | nil => intro env _ rest; rfl
  | cons pr done' ih =>
    intro env hdone rest
    have hpr := hdone pr (by simp)
    cases hsi : lookupLast srcMap pr.1 with
    | none => rw [hsi] at hpr; simp at hpr
    | some si =>
      cases hti : lookupLast tgtMap pr.2 with
      | none => rw [hti] at hpr; simp at hpr
      | some ti =>
        rw [List.cons_append, List.foldl_cons, fontPhase]
        simp only [hsi, hti]
        rw [ih _ (fun p hp => hdone p (by simp [hp])) rest]
        congr 1
        rw [applyFontPair]
        simp only [hsi, hti]

theorem fontPhase_fail (srcEnv : List CFObj) (srcMap tgtMap : List (Int × Nat))
    (s t : Int) (rest : List (Int × Int)) (env : List CFObj)
    (hfail : lookupLast srcMap s = none ∨ lookupLast tgtMap t = none) :
    fontPhase srcEnv srcMap tgtMap ((s, t) :: rest) env = (env, some (fontErr s t)) := by
  rw [fontPhase]
  rcases hfail with h | h
  · rw [h]
  · rw [h]
    cases lookupLast srcMap s <;> rfl

/-- C8 counterexample: the claim says *whenever* a zipped font-asset
pair fails to resolve on both sides, `core_change_font` raises a fatal
mapping error — but the phase is guarded by `if source_font_assets and
new_font_assets:`, so with empty scanned maps the configured pair
`(1, 1)` is unresolvable on both sides and yet the operation completes
with no error at all. -/
theorem c8_unresolvable_pair_can_pass_silently :
    lookupLast (build_maps ([] : List CFObj) ⟨some [1], none, none⟩).1 1 = none ∧
    core_change_font [] [] ⟨some [1], none, none⟩ ⟨some [1], none, none⟩ = ([], none) := by
  constructor
  · rfl
  · rfl


theorem texPhase_progress (srcEnv : List CFObj) (srcMap tgtMap : List ((Int × Str) × Nat)) :
    ∀ (done : List ((Int × Str) × Int × Str)) (env : List CFObj),
      (∀ p ∈ done, (lookupLast srcMap p.1).isSome ∧ (lookupLast tgtMap p.2).isSome) →
      ∀ rest, texPhase srcEnv srcMap tgtMap (done ++ rest) env =
        texPhase srcEnv srcMap tgtMap rest
          (done.foldl (applyTexQuad srcEnv srcMap tgtMap) env) := by
  intro done
  induction done with
  | nil => intro env _ rest; rfl
  | cons q done' ih =>
    intro env hdone rest
    have hq := hdone q (by simp)
    cases hsi : lookupLast srcMap q.1 with
    | none => rw [hsi] at hq; simp at hq
    | some si =>
      cases hti : lookupLast tgtMap q.2 with
      | none => rw [hti] at hq; simp at hq
      | some ti =>
        rw [List.cons_append, List.foldl_cons, texPhase]
        simp only [hsi, hti]
        rw [ih _ (fun p hp => hdone p (by simp [hp])) rest]
        congr 1
        rw [applyTexQuad]
        simp only [hsi, hti]

theorem texPhase_fail (srcEnv : List CFObj) (srcMap tgtMap : List ((Int × Str) × Nat))
    (q : (Int × Str) × Int × Str) (rest : List ((Int × Str) × Int × Str)) (env : List CFObj)
    (hfail : lookupLast srcMap q.1 = none ∨ lookupLast tgtMap q.2 = none) :
    texPhase srcEnv srcMap tgtMap (q :: rest) env = (env, some (texErr q.1.1 q.2.1)) := by
  rw [texPhase]
  rcases hfail with h | h
  · rw [h]
  · rw [h]
    cases lookupLast srcMap q.1 <;> rfl

theorem matPhase_progress (tgtMap : List ((Int × Str) × Nat)) :
    ∀ (done : List (Int × Str)) (env : List CFObj),
      (∀ p ∈ done, (lookupLast tgtMap p).isSome) →
      ∀ rest, matPhase tgtMap (done ++ rest) env =
        matPhase tgtMap rest (done.foldl (applyMatPair tgtMap) env) := by
  intro done
  induction done with
  | nil => intro env _ rest; rfl
  | cons p done' ih =>
    intro env hdone rest
    have hp := hdone p (by simp)
    cases hi : lookupLast tgtMap p with
    | none => rw [hi] at hp; simp at hp
    | some i =>
      rw [List.cons_append, List.foldl_cons, matPhase]
      simp only [hi]
      have hstep : applyMatPair tgtMap env p =
          (match (getMat env i).floats with
           | none => env
           | some fl =>
             if (patchFloats fl).2 then
               setMat env i { getMat env i with floats := some (patchFloats fl).1 }
             else env) := by
        rw [applyMatPair]
        simp only [hi]
      cases hfl : (getMat env i).floats with
      | none =>
        simp only [hfl]
        rw [ih _ (fun r hr => hdone r (by simp [hr])) rest]
        congr 1
        rw [hstep]
        simp only [hfl]
      | some fl =>
        simp only [hfl]
        by_cases hb : (patchFloats fl).2 = true
        · simp only [hb, if_true]
          rw [ih _ (fun r hr => hdone r (by simp [hr])) rest]
          congr 1
          rw [hstep]
          simp only [hfl, hb, if_true]
        · have hb' : (patchFloats fl).2 = false := by simpa using hb
          simp only [hb', Bool.false_eq_true, if_false]
          rw [ih _ (fun r hr => hdone r (by simp [hr])) rest]
          congr 1
          rw [hstep]
          simp only [hfl, hb', Bool.false_eq_true, if_false]

theorem matPhase_fail (tgtMap : List ((Int × Str) × Nat)) (p : Int × Str)
    (rest : List (Int × Str)) (env : List CFObj)
    (hfail : lookupLast tgtMap p = none) :
    matPhase tgtMap (p :: rest) env = (env, some (matErr p.1)) := by
  rw [matPhase, hfail]

/-- C8 (amended): in each of the three phases — font assets, textures,
materials — run only when its scanned map(s) are non-empty (an empty
scan skips the phase silently instead of raising), the first
positionally-zipped pair that does not resolve on both sides makes
`core_change_font` stop with exactly that pair's fatal mapping error,
and the returned environment keeps every mutation already applied: all
transplants of earlier pairs of the same phase *and* everything done by
the earlier phases (whose completed result `env1`/`env2` is the base the
failing phase folds over) — nothing is rolled back and no later phase
runs. -/
theorem c8_mapping_errors (tgtEnv srcEnv : List CFObj) (srcCfg tgtCfg : SideConfig) :
    (∀ (done rest : List (Int × Int)) (s t : Int),
      (build_maps srcEnv srcCfg).1 ≠ [] →
      (build_maps tgtEnv tgtCfg).1 ≠ [] →
      List.zip (srcCfg.font_assets.getD []) (tgtCfg.font_assets.getD []) =
        done ++ (s, t) :: rest →
      (∀ p ∈ done, (lookupLast (build_maps srcEnv srcCfg).1 p.1).isSome ∧
        (lookupLast (build_maps tgtEnv tgtCfg).1 p.2).isSome) →
      (lookupLast (build_maps srcEnv srcCfg).1 s = none ∨
        lookupLast (build_maps tgtEnv tgtCfg).1 t = none) →
      core_change_font tgtEnv srcEnv srcCfg tgtCfg =
        (done.foldl
          (applyFontPair srcEnv (build_maps srcEnv srcCfg).1 (build_maps tgtEnv tgtCfg).1)
          tgtEnv,
         some (fontErr s t))) ∧
    (∀ (env1 : List CFObj) (doneT restT : List ((Int × Str) × Int × Str))
        (q : (Int × Str) × Int × Str),
      (if !(build_maps srcEnv srcCfg).1.isEmpty && !(build_maps tgtEnv tgtCfg).1.isEmpty then
        fontPhase srcEnv (build_maps srcEnv srcCfg).1 (build_maps tgtEnv tgtCfg).1
          (List.zip (srcCfg.font_assets.getD []) (tgtCfg.font_assets.getD [])) tgtEnv
       else (tgtEnv, none)) = (env1, none) →
      (build_maps srcEnv srcCfg).2.1 ≠ [] →
      (build_maps tgtEnv tgtCfg).2.1 ≠ [] →
      List.zip
        (List.zip (srcCfg.textures.getD ([], [])).1 (srcCfg.textures.getD ([], [])).2)
        (List.zip (tgtCfg.textures.getD ([], [])).1 (tgtCfg.textures.getD ([], [])).2) =
        doneT ++ q :: restT →
      (∀ p ∈ doneT, (lookupLast (build_maps srcEnv srcCfg).2.1 p.1).isSome ∧
        (lookupLast (build_maps tgtEnv tgtCfg).2.1 p.2).isSome) →
      (lookupLast (build_maps srcEnv srcCfg).2.1 q.1 = none ∨
        lookupLast (build_maps tgtEnv tgtCfg).2.1 q.2 = none) →
      core_change_font tgtEnv srcEnv srcCfg tgtCfg =
        (doneT.foldl
          (applyTexQuad srcEnv (build_maps srcEnv srcCfg).2.1 (build_maps tgtEnv tgtCfg).2.1)
          env1,
         some (texErr q.1.1 q.2.1))) ∧
    (∀ (env1 env2 : List CFObj) (doneM restM : List (Int × Str)) (p : Int × Str),
      (if !(build_maps srcEnv srcCfg).1.isEmpty && !(build_maps tgtEnv tgtCfg).1.isEmpty then
        fontPhase srcEnv (build_maps srcEnv srcCfg).1 (build_maps tgtEnv tgtCfg).1
          (List.zip (srcCfg.font_assets.getD []) (tgtCfg.font_assets.getD [])) tgtEnv
       else (tgtEnv, none)) = (env1, none) →
      (if !(build_maps srcEnv srcCfg).2.1.isEmpty && !(build_maps tgtEnv tgtCfg).2.1.isEmpty then
        texPhase srcEnv (build_maps srcEnv srcCfg).2.1 (build_maps tgtEnv tgtCfg).2.1
          (List.zip
            (List.zip (srcCfg.textures.getD ([], [])).1 (srcCfg.textures.getD ([], [])).2)
            (List.zip (tgtCfg.textures.getD ([], [])).1 (tgtCfg.textures.getD ([], [])).2))
          env1
       else (env1, none)) = (env2, none) →
      (build_maps tgtEnv tgtCfg).2.2 ≠ [] →
      List.zip (tgtCfg.materials.getD ([], [])).1 (tgtCfg.materials.getD ([], [])).2 =
        doneM ++ p :: restM →
      (∀ r ∈ doneM, (lookupLast (build_maps tgtEnv tgtCfg).2.2 r).isSome) →
      lookupLast (build_maps tgtEnv tgtCfg).2.2 p = none →
      core_change_font tgtEnv srcEnv srcCfg tgtCfg =
        (doneM.foldl (applyMatPair (build_maps tgtEnv tgtCfg).2.2) env2,
         some (matErr p.1))) := by
  refine ⟨?_, ?_, ?_⟩
  · intro done rest s t hne1 hne2 hzip hdone hfail
    have h1 : (build_maps srcEnv srcCfg).1.isEmpty = false := by
      cases hh : (build_maps srcEnv srcCfg).1.isEmpty
      · rfl
      · exact absurd (List.isEmpty_iff.mp hh) hne1
    have h2 : (build_maps tgtEnv tgtCfg).1.isEmpty = false := by
      cases hh : (build_maps tgtEnv tgtCfg).1.isEmpty
      · rfl
      · exact absurd (List.isEmpty_iff.mp hh) hne2
    have hphase : fontPhase srcEnv (build_maps srcEnv srcCfg).1 (build_maps tgtEnv tgtCfg).1
        (List.zip (srcCfg.font_assets.getD []) (tgtCfg.font_assets.getD [])) tgtEnv =
        (done.foldl
          (applyFontPair srcEnv (build_maps srcEnv srcCfg).1 (build_maps tgtEnv tgtCfg).1)
          tgtEnv,
         some (fontErr s t)) := by
      rw [hzip]
      rw [fontPhase_progress _ _ _ done tgtEnv hdone ((s, t) :: rest)]
      exact fontPhase_fail _ _ _ s t rest _ hfail
    simp only [core_change_font, h1, h2, Bool.not_false, Bool.and_self, if_true, hphase]
  · intro env1 doneT restT q hstage hneS hneT hzipT hdoneT hfailT
    have h1 : (build_maps srcEnv srcCfg).2.1.isEmpty = false := by
      cases hh : (build_maps srcEnv srcCfg).2.1.isEmpty
      · rfl
      · exact absurd (List.isEmpty_iff.mp hh) hneS
    have h2 : (build_maps tgtEnv tgtCfg).2.1.isEmpty = false := by
      cases hh : (build_maps tgtEnv tgtCfg).2.1.isEmpty
      · rfl
      · exact absurd (List.isEmpty_iff.mp hh) hneT
    have hphase : texPhase srcEnv (build_maps srcEnv srcCfg).2.1 (build_maps tgtEnv tgtCfg).2.1
        (List.zip
          (List.zip (srcCfg.textures.getD ([], [])).1 (srcCfg.textures.getD ([], [])).2)
          (List.zip (tgtCfg.textures.getD ([], [])).1 (tgtCfg.textures.getD ([], [])).2))
        env1 =
        (doneT.foldl
          (applyTexQuad srcEnv (build_maps srcEnv srcCfg).2.1 (build_maps tgtEnv tgtCfg).2.1)
          env1,
         some (texErr q.1.1 q.2.1)) := by
      rw [hzipT]
      rw [texPhase_progress _ _ _ doneT env1 hdoneT (q :: restT)]
      exact texPhase_fail _ _ _ q restT _ hfailT
    simp only [core_change_font, hstage, h1, h2, Bool.not_false, Bool.and_self, if_true, hphase]
  · intro env1 env2 doneM restM p hstage hstage2 hneM hzipM hdoneM hfailM
    have h3 : (build_maps tgtEnv tgtCfg).2.2.isEmpty = false := by
      cases hh : (build_maps tgtEnv tgtCfg).2.2.isEmpty
      · rfl
      · exact absurd (List.isEmpty_iff.mp hh) hneM
    have hphase : matPhase (build_maps tgtEnv tgtCfg).2.2
        (List.zip (tgtCfg.materials.getD ([], [])).1 (tgtCfg.materials.getD ([], [])).2) env2 =
        (doneM.foldl (applyMatPair (build_maps tgtEnv tgtCfg).2.2) env2,
         some (matErr p.1)) := by
      rw [hzipM]
      rw [matPhase_progress _ doneM env2 hdoneM (p :: restM)]
      exact matPhase_fail _ p restM _ hfailM
    simp only [core_change_font, hstage, hstage2, h3, Bool.not_false, if_true, hphase]

/-- C8 witness: three concrete runs, one per phase.  Font: of two
configured pairs the first transplants and the second fails, aborting
with its error and keeping the transplant.  Texture: the font phase
completes (its transplant visible in `env1`), then the second texture
quadruple fails, keeping both the font transplant and the first
texture copy.  Material: both earlier phases are skipped (empty scans),
the second configured material fails, keeping the first material's
float patch. -/
theorem c8_mapping_errors_witness :
    core_change_font
      [CFObj.mono 2 ("TMP_FontAsset".data) default]
      [CFObj.mono 1 ("TMP_FontAsset".data) ⟨0, [], 0, 0, 0, [], [], [], some ("SRC".data), none⟩]
      ⟨some [1, 5], none, none⟩ ⟨some [2, 6], none, none⟩ =
      ([(1, 2)].foldl
        (applyFontPair
          [CFObj.mono 1 ("TMP_FontAsset".data) ⟨0, [], 0, 0, 0, [], [], [], some ("SRC".data), none⟩]
          (build_maps
            [CFObj.mono 1 ("TMP_FontAsset".data) ⟨0, [], 0, 0, 0, [], [], [], some ("SRC".data), none⟩]
            ⟨some [1, 5], none, none⟩).1
          (build_maps [CFObj.mono 2 ("TMP_FontAsset".data) default] ⟨some [2, 6], none, none⟩).1)
        [CFObj.mono 2 ("TMP_FontAsset".data) default],
       some (fontErr 5 6)) ∧
    ([(1, 2)].foldl
        (applyFontPair
          [CFObj.mono 1 ("TMP_FontAsset".data) ⟨0, [], 0, 0, 0, [], [], [], some ("SRC".data), none⟩]
          (build_maps
            [CFObj.mono 1 ("TMP_FontAsset".data) ⟨0, [], 0, 0, 0, [], [], [], some ("SRC".data), none⟩]
            ⟨some [1, 5], none, none⟩).1
          (build_maps [CFObj.mono 2 ("TMP_FontAsset".data) default] ⟨some [2, 6], none, none⟩).1)
        [CFObj.mono 2 ("TMP_FontAsset".data) default]) =
      [CFObj.mono 2 ("TMP_FontAsset".data) ⟨0, [], 0, 0, 0, [], [], [], some ("SRC".data), none⟩] ∧
    core_change_font
      [CFObj.mono 2 ("TMP_FontAsset".data) default, CFObj.tex 20 ⟨"T".data, 0, 0, 0⟩]
      [CFObj.mono 1 ("TMP_FontAsset".data) ⟨0, [], 0, 0, 0, [], [], [], some ("SRC".data), none⟩,
       CFObj.tex 10 ⟨"T".data, 7, 3, 4⟩]
      ⟨some [1], some ([10, 11], ["T".data, "U".data]), none⟩
      ⟨some [2], some ([20, 21], ["T".data, "U".data]), none⟩ =
      ([((10, "T".data), (20, "T".data))].foldl
        (applyTexQuad
          [CFObj.mono 1 ("TMP_FontAsset".data) ⟨0, [], 0, 0, 0, [], [], [], some ("SRC".data), none⟩,
           CFObj.tex 10 ⟨"T".data, 7, 3, 4⟩]
          (build_maps
            [CFObj.mono 1 ("TMP_FontAsset".data) ⟨0, [], 0, 0, 0, [], [], [], some ("SRC".data), none⟩,
             CFObj.tex 10 ⟨"T".data, 7, 3, 4⟩]
            ⟨some [1], some ([10, 11], ["T".data, "U".data]), none⟩).2.1
          (build_maps
            [CFObj.mono 2 ("TMP_FontAsset".data) default, CFObj.tex 20 ⟨"T".data, 0, 0, 0⟩]
            ⟨some [2], some ([20, 21], ["T".data, "U".data]), none⟩).2.1)
        [CFObj.mono 2 ("TMP_FontAsset".data) ⟨0, [], 0, 0, 0, [], [], [], some ("SRC".data), none⟩,
         CFObj.tex 20 ⟨"T".data, 0, 0, 0⟩],
       some (texErr 11 21)) ∧
    ([((10, "T".data), (20, "T".data))].foldl
        (applyTexQuad
          [CFObj.mono 1 ("TMP_FontAsset".data) ⟨0, [], 0, 0, 0, [], [], [], some ("SRC".data), none⟩,
           CFObj.tex 10 ⟨"T".data, 7, 3, 4⟩]
          (build_maps
            [CFObj.mono 1 ("TMP_FontAsset".data) ⟨0, [], 0, 0, 0, [], [], [], some ("SRC".data), none⟩,
             CFObj.tex 10 ⟨"T".data, 7, 3, 4⟩]
            ⟨some [1], some ([10, 11], ["T".data, "U".data]), none⟩).2.1
          (build_maps
            [CFObj.mono 2 ("TMP_FontAsset".data) default, CFObj.tex 20 ⟨"T".data, 0, 0, 0⟩]
            ⟨some [2], some ([20, 21], ["T".data, "U".data]), none⟩).2.1)
        [CFObj.mono 2 ("TMP_FontAsset".data) ⟨0, [], 0, 0, 0, [], [], [], some ("SRC".data), none⟩,
         CFObj.tex 20 ⟨"T".data, 0, 0, 0⟩]) =
      [CFObj.mono 2 ("TMP_FontAsset".data) ⟨0, [], 0, 0, 0, [], [], [], some ("SRC".data), none⟩,
       CFObj.tex 20 ⟨"T".data, 7, 3, 4⟩] ∧
    core_change_font
      [CFObj.mat 30 ⟨"M".data, some [("_UnderlayOffsetX".data, 0)]⟩] []
      ⟨none, none, none⟩ ⟨none, none, some ([30, 31], ["M".data, "N".data])⟩ =
      ([(30, "M".data)].foldl
        (applyMatPair
          (build_maps [CFObj.mat 30 ⟨"M".data, some [("_UnderlayOffsetX".data, 0)]⟩]
            ⟨none, none, some ([30, 31], ["M".data, "N".data])⟩).2.2)
        [CFObj.mat 30 ⟨"M".data, some [("_UnderlayOffsetX".data, 0)]⟩],
       some (matErr 31)) ∧
    ([(30, "M".data)].foldl
        (applyMatPair
          (build_maps [CFObj.mat 30 ⟨"M".data, some [("_UnderlayOffsetX".data, 0)]⟩]
            ⟨none, none, some ([30, 31], ["M".data, "N".data])⟩).2.2)
        [CFObj.mat 30 ⟨"M".data, some [("_UnderlayOffsetX".data, 0)]⟩]) =
      [CFObj.mat 30 ⟨"M".data, some [("_UnderlayOffsetX".data, (1 : Rat)/10)]⟩] := by
  refine ⟨?_, by decide, ?_, by decide, ?_, by rfl⟩
  · exact (c8_mapping_errors
      [CFObj.mono 2 ("TMP_FontAsset".data) default]
      [CFObj.mono 1 ("TMP_FontAsset".data) ⟨0, [], 0, 0, 0, [], [], [], some ("SRC".data), none⟩]
      ⟨some [1, 5], none, none⟩ ⟨some [2, 6], none, none⟩).1
      [(1, 2)] [] 5 6 (by decide) (by decide) (by decide) (by decide) (Or.inl (by decide))
  · exact (c8_mapping_errors
      [CFObj.mono 2 ("TMP_FontAsset".data) default, CFObj.tex 20 ⟨"T".data, 0, 0, 0⟩]
      [CFObj.mono 1 ("TMP_FontAsset".data) ⟨0, [], 0, 0, 0, [], [], [], some ("SRC".data), none⟩,
       CFObj.tex 10 ⟨"T".data, 7, 3, 4⟩]
      ⟨some [1], some ([10, 11], ["T".data, "U".data]), none⟩
      ⟨some [2], some ([20, 21], ["T".data, "U".data]), none⟩).2.1
      [CFObj.mono 2 ("TMP_FontAsset".data) ⟨0, [], 0, 0, 0, [], [], [], some ("SRC".data), none⟩,
       CFObj.tex 20 ⟨"T".data, 0, 0, 0⟩]
      [((10, "T".data), (20, "T".data))] [] ((11, "U".data), (21, "U".data))
      (by decide) (by decide) (by decide) (by decide) (by decide) (Or.inl (by decide))
  · exact (c8_mapping_errors
      [CFObj.mat 30 ⟨"M".data, some [("_UnderlayOffsetX".data, 0)]⟩] []
      ⟨none, none, none⟩ ⟨none, none, some ([30, 31], ["M".data, "N".data])⟩).2.2
      [CFObj.mat 30 ⟨"M".data, some [("_UnderlayOffsetX".data, 0)]⟩]
      [CFObj.mat 30 ⟨"M".data, some [("_UnderlayOffsetX".data, 0)]⟩]
      [(30, "M".data)] [] (31, "N".data)
      (by decide) (by decide) (by decide) (by decide) (by decide) (by decide)
